import Mathlib

/-!
Verification of the SpectraSync live-roster reconciliation engine and clip
conversion pipeline (src/bot/vip-tracker.ts, community-pool-tracker.ts,
raid-pile-tracker.ts, clip-gif-processor.ts).

The TypeScript code is shallowly embedded: JS objects used as string-keyed
maps become association lists in insertion order (updating an existing key
keeps its position, adding a new key appends), the Discord channel API
becomes a trace of operations plus an environment of fetch/send outcomes,
and each async function becomes a pure state-passing function.

Definitions come first, then the theorems about them.
-/

/-! ## Basic data model -/

/-- One live entity (the projection of LiveUser that the reconciliation
logic inspects): its external Twitch id and its stream-start timestamp in
milliseconds. -/
structure Entity where
  id : String
  startedAt : Nat
deriving DecidableEq, Repr

/-- One channel/message operation performed during a pass, in the order the
code awaits them. `delMsg`/`bulkDel` are the generic message deletions used
by the stop paths; `startTracking` marks an invocation of the start
function from inside a bootstrap. -/
inductive Op where
  | delCard (mid : String)
  | delClip (mid : String)
  | createCard (eid : String) (mid : String)
  | editCard (mid : String)
  | createClip (eid : String) (mid : String)
  | editFooter (count : Nat)
  | delFooter (mid : String)
  | createFooter (mid : String) (count : Nat)
  | createHeader (mid : String)
  | editSlot (name : String) (mid : String)
  | createSlot (name : String) (mid : String)
  | delMsg (mid : String)
  | bulkDel (mids : List String)
  | startTracking
deriving DecidableEq, Repr

/-- Fresh message id allocator for `channel.send`. -/
def mkId (n : Nat) : String := "new-" ++ toString n

/-- JS object lookup `m[k]` on a string-keyed object. -/
def lookupA (m : List (String × String)) (k : String) : Option String :=
  (m.find? (fun p => p.1 == k)).map (fun p => p.2)

/-- JS `delete m[k]`. -/
def eraseA (m : List (String × String)) (k : String) : List (String × String) :=
  m.filter (fun p => p.1 != k)

/-- JS `m[k] = v`: replaces in place when the key exists, appends otherwise
(JS string-keyed objects enumerate in insertion order). -/
def setA (m : List (String × String)) (k v : String) : List (String × String) :=
  if m.any (fun p => p.1 == k) then
    m.map (fun p => if p.1 == k then (k, v) else p)
  else
    m ++ [(k, v)]

/-- Keys of a JS object, `Object.keys`. -/
def keysA (m : List (String × String)) : List String := m.map Prod.fst

/-- Values of a JS object, `Object.values`. -/
def valuesA (m : List (String × String)) : List String := m.map Prod.snd

/-- The ids of a live-entity list. -/
def entIds (l : List Entity) : List String := l.map Entity.id

/-- JS truthiness of an optional string field (`undefined` and the empty
string are falsy). -/
def strTruthy : Option String → Bool
  | none => false
  | some s => !s.isEmpty

/-! ## Stable sort by stream start

Array.prototype.sort is specified to be stable; both checkRaidPile and
checkCommunityPool call
  .sort((a, b) => new Date(a.started_at).getTime() - new Date(b.started_at).getTime())
which is a stable sort ascending by the stream-start timestamp.  We embed
it as a stable insertion sort on that key. -/

/-- Insert an entity in front of the first element whose start is not
strictly earlier: the stable insertion step. -/
def sortIns (e : Entity) : List Entity → List Entity
  | [] => [e]
  | f :: fs => if f.startedAt < e.startedAt then f :: sortIns e fs else e :: f :: fs

/-- Stable sort of the live list ascending by `startedAt`, embedding the
`.sort(...)` calls of checkRaidPile / checkCommunityPool. -/
def sortByStart : List Entity → List Entity
  | [] => []
  | e :: es => sortIns e (sortByStart es)

/-- Ascending-by-start ordering relation. -/
def startLE (a b : Entity) : Prop := a.startedAt ≤ b.startedAt

/-! ## Clip conversion pipeline (src/bot/clip-gif-processor.ts) -/

/-- Processing status of a clip document. -/
inductive PStatus where
  | pending
  | processing
  | complete
  | error
deriving DecidableEq, Repr

/-- The fields of a clip document that the processor reads or writes
(ClipDocumentData). -/
structure ClipDoc where
  videoUrl : Option String := none
  gifUrl : Option String := none
  gifStoragePath : Option String := none
  storageDestination : Option String := none
  processingStatus : Option PStatus := none
  errorMessage : Option String := none
  durationSeconds : Option Nat := none
deriving DecidableEq, Repr

/-- markProcessing: the transactional claim.  Input is the stored document
(or `none` when absent); output is (the data returned to the caller, the
stored document after the transaction).  Mirrors clip-gif-processor.ts
lines 94-115. -/
def markProcessing : Option ClipDoc → Option ClipDoc × Option ClipDoc
  | none => (none, none)
  | some d =>
    if !strTruthy d.videoUrl then (none, some d)
    else if strTruthy d.gifUrl || d.processingStatus == some PStatus.processing
        || d.processingStatus == some PStatus.complete then (none, some d)
    else (some d, some { d with processingStatus := some PStatus.processing })

/-- The abort condition of the claim step as the spec states it (C4):
document absent, no source video URL, output URL already present, or
status already processing/complete.  Written from the spec's words, to be
compared with `markProcessing`. -/
def specClaimAborts : Option ClipDoc → Bool
  | none => true
  | some d =>
    !strTruthy d.videoUrl || strTruthy d.gifUrl
      || d.processingStatus == some PStatus.processing
      || d.processingStatus == some PStatus.complete

/-- updateDocWithError: set status error with the failure message
(clip-gif-processor.ts lines 68-75); the output URL field is untouched. -/
def errorUpdate (d : ClipDoc) (msg : String) : ClipDoc :=
  { d with processingStatus := some PStatus.error, errorMessage := some msg }

/-- finalizeDoc: record the conversion result (lines 77-92). -/
def finalizeUpdate (d : ClipDoc) (url pathDest : String) (dur : Nat) : ClipDoc :=
  { d with gifUrl := some url, gifStoragePath := some pathDest,
           durationSeconds := some dur, processingStatus := some PStatus.complete,
           errorMessage := none }

/-- getStorageDestination (lines 40-51): stored destination, else legacy
path, else folder/guild/doc.gif. -/
def getStorageDestination (guildId docId : String) (d : ClipDoc)
    (folderEnv : Option String) : String :=
  match d.storageDestination with
  | some s => if s.trim.isEmpty then
      (match d.gifStoragePath with
       | some g => if g.trim.isEmpty then
            (folderEnv.getD "converted-clips") ++ "/" ++ guildId ++ "/" ++ docId ++ ".gif"
          else g
       | none => (folderEnv.getD "converted-clips") ++ "/" ++ guildId ++ "/" ++ docId ++ ".gif")
    else s
  | none =>
    match d.gifStoragePath with
    | some g => if g.trim.isEmpty then
        (folderEnv.getD "converted-clips") ++ "/" ++ guildId ++ "/" ++ docId ++ ".gif"
      else g
    | none => (folderEnv.getD "converted-clips") ++ "/" ++ guildId ++ "/" ++ docId ++ ".gif"

/-- Outcomes of the external steps of one conversion run: the video
download, the probe+transcode (convertMp4ToGif, which yields the true
duration), the storage upload, and the completion write.  Each either
succeeds or throws with a message; `urlOf` models the public-URL
computation for a storage path. -/
structure PipeEnv where
  download : Except String Unit
  convert : Except String Nat
  upload : Except String Unit
  finalizeWrite : Except String Unit
  urlOf : String → String
  folderEnv : Option String

/-- The first exception raised by the convert/upload/completion sequence,
in the order the code awaits the steps. -/
def firstPipelineError (env : PipeEnv) : Option String :=
  match env.download with
  | .error m => some m
  | .ok _ =>
    match env.convert with
    | .error m => some m
    | .ok _ =>
      match env.upload with
      | .error m => some m
      | .ok _ =>
        match env.finalizeWrite with
        | .error m => some m
        | .ok _ => none

/-- processClipDoc (lines 117-186) for a single invocation (the in-process
`processingDocs` set only short-circuits a re-entrant call and is empty
here): pre-check, transactional claim, then download / convert / upload /
finalize with every failure caught by updateDocWithError.  Returns the
stored document after the run. -/
def processClipDoc (guildId docId : String) (doc : Option ClipDoc) (env : PipeEnv) :
    Option ClipDoc :=
  match doc with
  | none => none
  | some d =>
    if strTruthy d.gifUrl || d.processingStatus == some PStatus.complete then some d
    else
      match markProcessing (some d) with
      | (none, stored) => stored
      | (some od, stored) =>
        let dCur := stored.getD d
        if !strTruthy od.videoUrl then
          some (errorUpdate dCur "Missing videoUrl for conversion.")
        else
          match env.download with
          | .error m => some (errorUpdate dCur m)
          | .ok _ =>
            match env.convert with
            | .error m => some (errorUpdate dCur m)
            | .ok dur =>
              match env.upload with
              | .error m => some (errorUpdate dCur m)
              | .ok _ =>
                let dest := getStorageDestination guildId docId od env.folderEnv
                match env.finalizeWrite with
                | .error m => some (errorUpdate dCur m)
                | .ok _ => some (finalizeUpdate dCur (env.urlOf dest) dest dur)

/-! ## Guild scheduler (startXTracking / runInitialXCheck / stopXTracking)

The timer bookkeeping of one (guild, tracker type) pair.  `pending` counts
scheduled but not yet fired setTimeout callbacks, `active` is the entry in
the module's activeTrackers map, `liveIntervals` the interval timers that
have been created and not cleared, `nextId` a fresh-timer allocator. -/

structure SchedState where
  pending : Nat
  active : Option Nat
  liveIntervals : List Nat
  nextId : Nat
deriving DecidableEq, Repr

/-- Process start: no timers. -/
def schedInit : SchedState := ⟨0, none, [], 0⟩

/-- Events against one pair's scheduler: a start call, a pending setTimeout
callback firing, a bootstrap (runInitialXCheck) call, a stop call. -/
inductive SchedEvent where
  | startCall
  | timeoutFire
  | bootstrapCall
  | stopCall
deriving DecidableEq, Repr

/-- clearInterval(activeTrackers[guildId]); delete activeTrackers[guildId]. -/
def clearActive (s : SchedState) : SchedState :=
  match s.active with
  | some i => { s with active := none, liveIntervals := s.liveIntervals.erase i }
  | none => s

/-- startVipTracking (vip-tracker.ts lines 239-253): the guard returns
early only when the activeTrackers entry exists; otherwise a 10-second
setTimeout is scheduled, and only its callback creates the interval and
stores it (overwriting, not clearing, any entry installed meanwhile).
runInitialVipCheck clears the interval and does not call start. -/
def vipSchedStep (s : SchedState) : SchedEvent → SchedState
  | .startCall => if s.active.isSome then s else { s with pending := s.pending + 1 }
  | .timeoutFire =>
      if s.pending = 0 then s
      else
        { pending := s.pending - 1, active := some s.nextId,
          liveIntervals := s.nextId :: s.liveIntervals, nextId := s.nextId + 1 }
  | .bootstrapCall => clearActive s
  | .stopCall => clearActive s

def vipSchedRun (s : SchedState) : List SchedEvent → SchedState
  | [] => s
  | e :: es => vipSchedRun (vipSchedStep s e) es

/-- startRaidPileTracking (raid-pile-tracker.ts lines 222-228): no stagger
timeout; the guard and the interval creation are one synchronous step.
runInitialRaidPileCheck clears the interval and ends by calling start. -/
def raidSchedStep (s : SchedState) : SchedEvent → SchedState
  | .startCall =>
      if s.active.isSome then s
      else
        { s with active := some s.nextId,
                 liveIntervals := s.nextId :: s.liveIntervals, nextId := s.nextId + 1 }
  | .timeoutFire => s
  | .bootstrapCall =>
      let s' := clearActive s
      if s'.active.isSome then s'
      else
        { s' with active := some s'.nextId,
                  liveIntervals := s'.nextId :: s'.liveIntervals, nextId := s'.nextId + 1 }
  | .stopCall => clearActive s

def raidSchedRun (s : SchedState) : List SchedEvent → SchedState
  | [] => s
  | e :: es => raidSchedRun (raidSchedStep s e) es

/-! ## Community Pool spotlight rotation (module-level shared index) -/

/-- The spotlight step of checkCommunityPool (lines 149-154): when the
sorted live list is non-empty, advance the module-level index modulo its
length and pick that element. -/
def spotlightSelect (idx : Nat) (live : List Entity) : Nat × Option Entity :=
  if live.length > 0 then
    let i := (idx + 1) % live.length
    (i, live.get? i)
  else (idx, none)

/-- A process-wide event touching the shared spotlightIndex: a
reconciliation pass for some guild (with that guild's fetched live list),
or a bootstrap for some guild (`configured` says whether that guild had a
persisted configuration, in which case the bootstrap's embedded pass also
runs). -/
inductive PoolEvent where
  | passFor (guild : String) (live : List Entity)
  | bootstrapFor (guild : String) (configured : Bool) (live : List Entity)

/-- How one event transforms the module-level spotlightIndex.  A pass
sorts its live list then runs the spotlight step; a bootstrap assigns 0
(runInitialCommunityPoolCheck line 275) and, when a configuration is
persisted, its embedded pass then runs the spotlight step from 0. -/
def poolIdxStep (idx : Nat) : PoolEvent → Nat
  | .passFor _ live => (spotlightSelect idx (sortByStart live)).1
  | .bootstrapFor _ configured live =>
      if configured then (spotlightSelect 0 (sortByStart live)).1 else 0

def runPoolIdx (idx : Nat) : List PoolEvent → Nat
  | [] => idx
  | e :: es => runPoolIdx (poolIdxStep idx e) es

/-! ## VIP tracker reconciliation (src/bot/vip-tracker.ts checkVips) -/

/-- The per-guild message store / persisted vipLiveChannel state. -/
structure VipStore where
  headerId : Option String := none
  footerId : Option String := none
  cards : List (String × String) := []
  clips : List (String × String) := []
deriving DecidableEq, Repr

/-- Environment of a pass: which message fetches succeed, for which
entities buildClipGifMessageOptions returns a message, which clip sends
succeed, and whether the footer is the last message of the channel. -/
structure TrackEnv where
  resolves : String → Bool
  clipOpts : String → Bool
  clipSendOk : String → Bool
  footerIsLast : Bool

/-- The offline sweep of checkVips (lines 157-172): for every posted id not
live, delete its card message and drop the map entry; delete and drop the
associated clip message when one is mapped. -/
def sweepVip (liveIds : List String) :
    List (String × String) → List (String × String) →
    List Op × List (String × String) × List (String × String)
  | [], clips => ([], [], clips)
  | (k, m) :: cs, clips =>
    if liveIds.contains k then
      let (ops, cs', clips') := sweepVip liveIds cs clips
      (ops, (k, m) :: cs', clips')
    else
      match lookupA clips k with
      | some cm =>
        let (ops, cs', clips') := sweepVip liveIds cs (eraseA clips k)
        (Op.delCard m :: Op.delClip cm :: ops, cs', clips')
      | none =>
        let (ops, cs', clips') := sweepVip liveIds cs clips
        (Op.delCard m :: ops, cs', clips')

/-- One card update of the checkVips live loop (lines 176-192): edit a
mapped card whose message still exists, re-create it in place when the
message vanished, create a card for an unmapped id. -/
def cardStepVip (env : TrackEnv) (cards : List (String × String)) (eid : String)
    (n : Nat) : List Op × List (String × String) × Nat :=
  match lookupA cards eid with
  | some m =>
    if env.resolves m then ([Op.editCard m], cards, n)
    else ([Op.createCard eid (mkId n)], setA cards eid (mkId n), n + 1)
  | none => ([Op.createCard eid (mkId n)], setA cards eid (mkId n), n + 1)

/-- The clip replacement of the checkVips live loop (lines 194-211): post
the new clip first (keeping the old store entry when the send fails), then
delete the old clip message. -/
def vipClipSeg (env : TrackEnv) (eid : String) (clips : List (String × String))
    (n : Nat) : List Op × List (String × String) × Nat :=
  let oldClip := lookupA clips eid
  let step : List Op × List (String × String) × Nat :=
    if env.clipOpts eid then
      if env.clipSendOk eid then
        ([Op.createClip eid (mkId n)], setA clips eid (mkId n), n + 1)
      else ([], clips, n)
    else ([], clips, n)
  let (ops, clips2, n2) := step
  (ops ++ (match oldClip with
           | some o => [Op.delClip o]
           | none => []), clips2, n2)

/-- The live loop of checkVips (lines 175-212). -/
def vipLive (env : TrackEnv) :
    List Entity → List (String × String) → List (String × String) → Nat →
    List Op × List (String × String) × List (String × String) × Nat
  | [], cards, clips, n => ([], cards, clips, n)
  | e :: es, cards, clips, n =>
    let (ops1, cards1, n1) := cardStepVip env cards e.id n
    let (ops2, clips2, n2) := vipClipSeg env e.id clips n1
    let (rest, cardsF, clipsF, nF) := vipLive env es cards1 clips2 n2
    (ops1 ++ ops2 ++ rest, cardsF, clipsF, nF)

/-- The footer refresh shared by checkVips (lines 215-228) and
checkCommunityPool (lines 222-237): edit the footer when it is still the
last message, otherwise delete and re-send it; when the footer message is
gone, re-send it unless this is the bootstrap pass. -/
def footerStep (env : TrackEnv) (footerId : Option String) (count : Nat)
    (isInitial : Bool) (n : Nat) : List Op × Option String × Nat :=
  match footerId with
  | some f =>
    if env.resolves f then
      if env.footerIsLast then ([Op.editFooter count], some f, n)
      else ([Op.delFooter f, Op.createFooter (mkId n) count], some (mkId n), n + 1)
    else if !isInitial then ([Op.createFooter (mkId n) count], some (mkId n), n + 1)
    else ([], some f, n)
  | none =>
    if !isInitial then ([Op.createFooter (mkId n) count], some (mkId n), n + 1)
    else ([], none, n)

/-- The body of checkVips after config load and channel fetch (lines
115-231).  `roster` is the guild's VIP twitch id list, `live` the entities
that are in the roster, in the users collection and currently live.  When
the roster is empty (lines 118-133) every card and clip message is deleted,
both maps are emptied and the footer (when it still resolves) is edited to
count 0; otherwise the sweep, the live loop and the footer refresh run. -/
def checkVipsBody (roster : List String) (live : List Entity) (store : VipStore)
    (env : TrackEnv) (isInitial : Bool) (n : Nat) : List Op × VipStore × Nat :=
  if roster.isEmpty then
    let ops := (valuesA store.cards).map Op.delCard
      ++ (valuesA store.clips).map Op.delClip
      ++ (match store.footerId with
          | some f => if env.resolves f then [Op.editFooter 0] else []
          | none => [])
    (ops, { store with cards := [], clips := [] }, n)
  else
    let (ops1, cards1, clips1) := sweepVip (entIds live) store.cards store.clips
    let (ops2, cards2, clips2, n2) := vipLive env live cards1 clips1 n
    let (ops3, footer3, n3) := footerStep env store.footerId live.length isInitial n2
    (ops1 ++ ops2 ++ ops3,
     { store with cards := cards2, clips := clips2, footerId := footer3 }, n3)

/-- checkVips top level (lines 96-113): silent no-op when no configuration
is persisted or the channel cannot be fetched. -/
def checkVips (config : Option VipStore) (channelOk : Bool) (roster : List String)
    (live : List Entity) (env : TrackEnv) (isInitial : Bool) (n : Nat) :
    List Op × Option VipStore × Nat :=
  match config with
  | none => ([], none, n)
  | some store =>
    if !channelOk then ([], some store, n)
    else
      let (ops, store', n') := checkVipsBody roster live store env isInitial n
      (ops, some store', n')

/-- runInitialVipCheck (lines 255-275): reset the local store, post the
header, run checkVips with isInitialCheck (which reloads the persisted
configuration, if any, and reconciles against it), then post the footer.
It clears the interval (see `vipSchedStep .bootstrapCall`) and does not
call start. -/
def runInitialVip (dbConfig : Option VipStore) (channelOk : Bool)
    (roster : List String) (live : List Entity) (env : TrackEnv) (n : Nat) :
    List Op × Nat :=
  let hid := mkId n
  let (ops, _, n2) := checkVips dbConfig channelOk roster live env true (n + 1)
  let fid := mkId n2
  (Op.createHeader hid :: ops ++ [Op.createFooter fid live.length], n2 + 1)

/-! ## Community Pool tracker (src/bot/community-pool-tracker.ts) -/

/-- The per-guild community pool message store. -/
structure PoolStore where
  headerId : Option String := none
  footerId : Option String := none
  cards : List (String × String) := []
deriving DecidableEq, Repr

/-- The offline sweep of checkCommunityPool (lines 180-186): delete the
card of every posted id that is no longer live. -/
def sweepPool (liveIds : List String) :
    List (String × String) → List Op × List (String × String)
  | [] => ([], [])
  | (k, m) :: cs =>
    if liveIds.contains k then
      let (ops, cs') := sweepPool liveIds cs
      (ops, (k, m) :: cs')
    else
      let (ops, cs') := sweepPool liveIds cs
      (Op.delCard m :: ops, cs')

/-- One card update of the checkCommunityPool live loop (lines 194-210):
edit a mapped card whose message still exists; when the message vanished,
drop the entry and post a new card; post a card for an unmapped id. -/
def cardStepPool (env : TrackEnv) (cards : List (String × String)) (eid : String)
    (n : Nat) : List Op × List (String × String) × Nat :=
  match lookupA cards eid with
  | some m =>
    if env.resolves m then ([Op.editCard m], cards, n)
    else ([Op.createCard eid (mkId n)], setA (eraseA cards eid) eid (mkId n), n + 1)
  | none => ([Op.createCard eid (mkId n)], setA cards eid (mkId n), n + 1)

/-- The live loop of checkCommunityPool (lines 189-211). -/
def poolLive (env : TrackEnv) :
    List Entity → List (String × String) → Nat →
    List Op × List (String × String) × Nat
  | [], cards, n => ([], cards, n)
  | e :: es, cards, n =>
    let (ops1, cards1, n1) := cardStepPool env cards e.id n
    let (rest, cardsF, nF) := poolLive env es cards1 n1
    (ops1 ++ rest, cardsF, nF)

/-- The body of checkCommunityPool (lines 126-248): sort the live list,
advance the shared spotlight index, delete the old spotlight clip message,
post the new one, then sweep, live loop and footer refresh.  Returns
(trace, new store, new spotlight clip id, new shared index, allocator). -/
def checkPoolBody (store : PoolStore) (spotClipId : Option String)
    (liveIn : List Entity) (idx : Nat) (env : TrackEnv) (isInitial : Bool)
    (n : Nat) : List Op × PoolStore × Option String × Nat × Nat :=
  let live := sortByStart liveIn
  let (idx1, spot) := spotlightSelect idx live
  let ops0 := match spotClipId with
    | some o => [Op.delClip o]
    | none => []
  let clipStep : List Op × Option String × Nat :=
    match spot with
    | some u =>
      if env.clipOpts u.id then
        if env.clipSendOk u.id then ([Op.createClip u.id (mkId n)], some (mkId n), n + 1)
        else ([], none, n)
      else ([], none, n)
    | none => ([], none, n)
  let (ops1, newClip, n1) := clipStep
  let (ops2, cards2) := sweepPool (entIds live) store.cards
  let (ops3, cards3, n3) := poolLive env live cards2 n1
  let (ops4, footer4, n4) := footerStep env store.footerId live.length isInitial n3
  (ops0 ++ ops1 ++ ops2 ++ ops3 ++ ops4,
   { store with cards := cards3, footerId := footer4 }, newClip, idx1, n4)

/-! ## Raid Pile tracker (src/bot/raid-pile-tracker.ts) -/

/-- The per-guild raid pile message store / persisted raidPileChannel. -/
structure RaidStore where
  headerId : Option String := none
  holderId : Option String := none
  clipId : Option String := none
  leaderboardId : Option String := none
  queueId : Option String := none
  footerId : Option String := none
deriving DecidableEq, Repr

/-- Edit one fixed slot message when it still resolves (checkRaidPile lines
192-202). -/
def raidSlotEdit (env : TrackEnv) (mid : Option String) (name : String) : List Op :=
  match mid with
  | some m => if env.resolves m then [Op.editSlot name m] else []
  | none => []

/-- The body of checkRaidPile (lines 139-218): sort the live list, take the
holder, delete the old clip message first, post the new holder clip, then
edit the holder / leaderboard / queue / footer slot messages that still
exist. -/
def checkRaidBody (store : RaidStore) (liveIn : List Entity) (env : TrackEnv)
    (n : Nat) : List Op × RaidStore × Nat :=
  let live := sortByStart liveIn
  let holder := live.head?
  let ops0 := match store.clipId with
    | some o => [Op.delClip o]
    | none => []
  let clipStep : List Op × Option String × Nat :=
    match holder with
    | some h =>
      if env.clipOpts h.id then
        if env.clipSendOk h.id then ([Op.createClip h.id (mkId n)], some (mkId n), n + 1)
        else ([], none, n)
      else ([], none, n)
    | none => ([], none, n)
  let (ops1, newClip, n1) := clipStep
  let ops2 := raidSlotEdit env store.holderId "holder"
    ++ raidSlotEdit env store.leaderboardId "leaderboard"
    ++ raidSlotEdit env store.queueId "queue"
    ++ raidSlotEdit env store.footerId "footer"
  (ops0 ++ ops1 ++ ops2, { store with clipId := newClip }, n1)

/-- runInitialRaidPileCheck (lines 230-303): reset the store, post the
holder clip first when there is a holder, then freshly send the header,
holder, leaderboard, queue and footer messages, persist, and call
startRaidPileTracking. -/
def runInitialRaid (liveIn : List Entity) (env : TrackEnv) (n : Nat) :
    List Op × RaidStore × Nat :=
  let live := sortByStart liveIn
  let holder := live.head?
  let clipStep : List Op × Option String × Nat :=
    match holder with
    | some h =>
      if env.clipOpts h.id then
        if env.clipSendOk h.id then ([Op.createClip h.id (mkId n)], some (mkId n), n + 1)
        else ([], none, n)
      else ([], none, n)
    | none => ([], none, n)
  let (ops0, clipId, n0) := clipStep
  let ops := ops0 ++
    [Op.createSlot "header" (mkId n0), Op.createSlot "holder" (mkId (n0 + 1)),
     Op.createSlot "leaderboard" (mkId (n0 + 2)), Op.createSlot "queue" (mkId (n0 + 3)),
     Op.createSlot "footer" (mkId (n0 + 4)), Op.startTracking]
  (ops,
   { headerId := some (mkId n0), holderId := some (mkId (n0 + 1)), clipId := clipId,
     leaderboardId := some (mkId (n0 + 2)), queueId := some (mkId (n0 + 3)),
     footerId := some (mkId (n0 + 4)) }, n0 + 5)

/-! ## Stop paths -/

/-- The persisted vipLiveChannel document as stopVipTracking reads it. -/
structure VipConfigDoc where
  channelId : Option String := none
  headerId : Option String := none
  footerId : Option String := none
  cards : List (String × String) := []
  clips : List (String × String) := []
deriving DecidableEq, Repr

/-- The message ids stopVipTracking collects:
[headerId, footerId, ...cards, ...clips].filter(Boolean). -/
def vipStopIds (c : VipConfigDoc) : List String :=
  (([c.headerId, c.footerId].filterMap id) ++ valuesA c.cards ++ valuesA c.clips).filter
    (fun s => !s.isEmpty)

/-- stopVipTracking (lines 277-318) minus the interval clearing (see
`vipSchedStep .stopCall`): returns (returned boolean, channel operations,
whether the configuration document was deleted). -/
def stopVip (config : Option VipConfigDoc) (channelOk : Bool) :
    Bool × List Op × Bool :=
  match config with
  | none => (false, [], false)
  | some c =>
    if !strTruthy c.channelId then (false, [], false)
    else
      let ops := if channelOk then (vipStopIds c).map Op.delMsg else []
      (true, ops, true)

/-- The persisted raidPileChannel document as stopRaidPileTracking reads it. -/
structure RaidConfigDoc where
  channelId : Option String := none
  headerId : Option String := none
  holderId : Option String := none
  clipId : Option String := none
  leaderboardId : Option String := none
  queueId : Option String := none
  footerId : Option String := none
deriving DecidableEq, Repr

/-- The ids stopRaidPileTracking collects (line 322). -/
def raidStopIds (c : RaidConfigDoc) : List String :=
  ([c.headerId, c.holderId, c.clipId, c.leaderboardId, c.queueId, c.footerId].filterMap
    id).filter (fun s => !s.isEmpty)

/-- stopRaidPileTracking (lines 306-341) minus the interval clearing:
bulk-delete when more than one id, falling back to individual deletes when
the bulk delete fails. -/
def stopRaid (config : Option RaidConfigDoc) (channelOk bulkOk : Bool) :
    Bool × List Op × Bool :=
  match config with
  | none => (false, [], false)
  | some c =>
    if !strTruthy c.channelId then (false, [], false)
    else
      let ids := raidStopIds c
      let ops :=
        if channelOk then
          if ids.length > 1 then
            if bulkOk then [Op.bulkDel ids]
            else Op.bulkDel ids :: ids.map Op.delMsg
          else ids.map Op.delMsg
        else []
      (true, ops, true)

/-- The message ids a trace attempts to delete (individual deletes plus the
ids handed to a bulk delete). -/
def attemptedDeleteIds (t : List Op) : List String :=
  t.flatMap fun op => match op with
    | Op.delMsg m => [m]
    | Op.bulkDel ms => ms
    | _ => []

/-! ## Trace observations -/

def cardDeleteIds (t : List Op) : List String :=
  t.filterMap fun op => match op with
    | Op.delCard m => some m
    | _ => none

def cardCreateEids (t : List Op) : List String :=
  t.filterMap fun op => match op with
    | Op.createCard e _ => some e
    | _ => none

def cardEditIds (t : List Op) : List String :=
  t.filterMap fun op => match op with
    | Op.editCard m => some m
    | _ => none

def clipDeleteIds (t : List Op) : List String :=
  t.filterMap fun op => match op with
    | Op.delClip m => some m
    | _ => none

def isDelClip : Op → Bool
  | Op.delClip _ => true
  | _ => false

def isCreateClip : Op → Bool
  | Op.createClip _ _ => true
  | _ => false

def isClipOp (op : Op) : Bool := isDelClip op || isCreateClip op

def isCardOp : Op → Bool
  | Op.delCard _ => true
  | Op.createCard _ _ => true
  | Op.editCard _ => true
  | _ => false

/-- Scan a trace checking that no clip deletion happens after a clip
creation (`seen` records whether a creation has been passed). -/
def clipScan (seen : Bool) : List Op → Bool
  | [] => true
  | op :: rest =>
    match op with
    | Op.createClip _ _ => clipScan true rest
    | Op.delClip _ => !seen && clipScan seen rest
    | _ => clipScan seen rest

/-- Every old-clip deletion in the trace happens before every new-clip
creation. -/
def delBeforeCreate (t : List Op) : Bool := clipScan false t

/-! # Theorems -/

/-! ## Stable sort lemmas -/

theorem sortIns_perm (e : Entity) (l : List Entity) : (sortIns e l).Perm (e :: l) := by
  induction l with
  | nil => simp [sortIns]
  | cons f fs ih =>
      by_cases h : f.startedAt < e.startedAt
      · simp only [sortIns, if_pos h]
        exact (ih.cons f).trans (List.Perm.swap e f fs)
      · simp [sortIns, if_neg h]

theorem sortByStart_perm (l : List Entity) : (sortByStart l).Perm l := by
  induction l with
  | nil => simp [sortByStart]
  | cons e es ih => exact (sortIns_perm e (sortByStart es)).trans (ih.cons e)

theorem sortIns_sorted (e : Entity) (l : List Entity)
    (h : l.Pairwise startLE) : (sortIns e l).Pairwise startLE := by
  induction l with
  | nil => simp [sortIns, startLE]
  | cons f fs ih =>
      rcases List.pairwise_cons.mp h with ⟨hf, hfs⟩
      by_cases hlt : f.startedAt < e.startedAt
      · simp only [sortIns, if_pos hlt]
        refine List.pairwise_cons.mpr ⟨?_, ih hfs⟩
        intro b hb
        rcases List.mem_cons.mp ((sortIns_perm e fs).mem_iff.mp hb) with rfl | hb
        · exact Nat.le_of_lt hlt
        · exact hf b hb
      · simp only [sortIns, if_neg hlt]
        refine List.pairwise_cons.mpr ⟨?_, h⟩
        intro b hb
        rcases List.mem_cons.mp hb with rfl | hb
        · exact Nat.le_of_not_lt hlt
        · exact Nat.le_trans (Nat.le_of_not_lt hlt) (hf b hb)

theorem sortByStart_sorted (l : List Entity) : (sortByStart l).Pairwise startLE := by
  induction l with
  | nil => simp [sortByStart]
  | cons e es ih => exact sortIns_sorted e (sortByStart es) ih

theorem sortIns_filter_eq (e : Entity) (l : List Entity) (t : Nat) (he : e.startedAt = t) :
    (sortIns e l).filter (fun x => x.startedAt == t) =
      e :: l.filter (fun x => x.startedAt == t) := by
  induction l with
  | nil => simp [sortIns, he]
  | cons f fs ih =>
      by_cases hlt : f.startedAt < e.startedAt
      · have hne : (f.startedAt == t) = false := by
          simp only [beq_eq_false_iff_ne, ne_eq]
          omega
        simp only [sortIns, if_pos hlt, List.filter_cons, hne, Bool.false_eq_true,
          if_false, ih]
      · have hpe : (e.startedAt == t) = true := by simp [he]
        simp only [sortIns, if_neg hlt, List.filter_cons, hpe, if_true]

theorem sortIns_filter_ne (e : Entity) (l : List Entity) (t : Nat) (he : e.startedAt ≠ t) :
    (sortIns e l).filter (fun x => x.startedAt == t) =
      l.filter (fun x => x.startedAt == t) := by
  induction l with
  | nil => simp [sortIns, he]
  | cons f fs ih =>
      by_cases hlt : f.startedAt < e.startedAt
      · simp only [sortIns, if_pos hlt, List.filter_cons, ih]
      · have hpe : (e.startedAt == t) = false := by
          simp only [beq_eq_false_iff_ne, ne_eq]
          exact he
        simp only [sortIns, if_neg hlt, List.filter_cons, hpe, Bool.false_eq_true,
          if_false]

theorem sortByStart_stable (l : List Entity) (t : Nat) :
    (sortByStart l).filter (fun x => x.startedAt == t) =
      l.filter (fun x => x.startedAt == t) := by
  induction l with
  | nil => simp [sortByStart]
  | cons e es ih =>
      by_cases he : e.startedAt = t
      · rw [sortByStart, sortIns_filter_eq e _ t he, ih, List.filter_cons]
        simp [he]
      · rw [sortByStart, sortIns_filter_ne e _ t he, ih, List.filter_cons]
        simp [he]

/-! ## C3: display ordering -/

/-- C3 counterexample: the claim says two entities with equal stream-start
timestamps are ordered by their entity id, making the output order a
deterministic function of the entity set.  The embedded sort keeps tied
entities in input order: the two orderings of the same two-entity set
(distinct ids, equal timestamps) produce two different outputs, so no id
tiebreak is applied and the order is not a function of the set. -/
theorem claim_C3_counterexample :
    sortByStart [Entity.mk "b" 5, Entity.mk "a" 5] = [Entity.mk "b" 5, Entity.mk "a" 5]
    ∧ sortByStart [Entity.mk "a" 5, Entity.mk "b" 5] = [Entity.mk "a" 5, Entity.mk "b" 5]
    ∧ sortByStart [Entity.mk "b" 5, Entity.mk "a" 5] ≠
        sortByStart [Entity.mk "a" 5, Entity.mk "b" 5]
    ∧ (Entity.mk "b" 5).startedAt = (Entity.mk "a" 5).startedAt
    ∧ (Entity.mk "b" 5).id ≠ (Entity.mk "a" 5).id := by
  refine ⟨rfl, rfl, by decide, rfl, by decide⟩

/-- C3 (amended): the displayed order is ascending by stream-start
timestamp; entities with equal timestamps keep their original roster
order (the sort is stable), so the output depends on the input order, not
only on the entity set; the spec scenario [a@T1, b@T0] does yield [b, a]. -/
theorem claim_C3 :
    (∀ l : List Entity, (sortByStart l).Pairwise startLE)
    ∧ (∀ l : List Entity, (sortByStart l).Perm l)
    ∧ (∀ (l : List Entity) (t : Nat),
        (sortByStart l).filter (fun x => x.startedAt == t) =
          l.filter (fun x => x.startedAt == t))
    ∧ sortByStart [Entity.mk "a" 1, Entity.mk "b" 0] =
        [Entity.mk "b" 0, Entity.mk "a" 1] :=
  ⟨sortByStart_sorted, sortByStart_perm, sortByStart_stable, rfl⟩

/-! ## C4: the transactional claim step -/

theorem markProcessing_abort (d : ClipDoc) (h : specClaimAborts (some d) = true) :
    markProcessing (some d) = (none, some d) := by
  by_cases hv : strTruthy d.videoUrl = true
  · have hrest : (strTruthy d.gifUrl || d.processingStatus == some PStatus.processing
        || d.processingStatus == some PStatus.complete) = true := by
      simp only [specClaimAborts, hv, Bool.not_true, Bool.false_or] at h
      simpa [Bool.or_assoc] using h
    simp [markProcessing, hv, hrest, Bool.or_assoc]
  · have hv' : strTruthy d.videoUrl = false := by simpa using hv
    simp [markProcessing, hv']

theorem markProcessing_not_abort (d : ClipDoc) (h : specClaimAborts (some d) = false) :
    markProcessing (some d) =
      (some d, some { d with processingStatus := some PStatus.processing }) := by
  have h' := h
  simp only [specClaimAborts, Bool.or_eq_false_iff, Bool.not_eq_false'] at h'
  obtain ⟨⟨⟨hv, hg⟩, hp⟩, hc⟩ := h'
  simp [markProcessing, hv, hg, hp, hc]

/-- C4: the claim step aborts with no write exactly when the document is
absent, has no source URL, already has an output URL, or is already
processing/complete; otherwise it returns the data and commits status
processing — after which a second claim attempt aborts, so only one run
can acquire the processing state. -/
theorem claim_C4 (doc : Option ClipDoc) :
    ((markProcessing doc).1 = none ↔ specClaimAborts doc = true)
    ∧ ((markProcessing doc).1 = none → (markProcessing doc).2 = doc)
    ∧ (specClaimAborts doc = false →
        ∃ d, doc = some d ∧
          markProcessing doc =
            (some d, some { d with processingStatus := some PStatus.processing }))
    ∧ ((markProcessing doc).1 ≠ none →
        (markProcessing (markProcessing doc).2).1 = none) := by
  cases doc with
  | none => simp [markProcessing, specClaimAborts]
  | some d =>
    by_cases h : specClaimAborts (some d) = true
    · rw [markProcessing_abort d h]
      simp [h]
    · have h' : specClaimAborts (some d) = false := by simpa using h
      rw [markProcessing_not_abort d h']
      have hv : strTruthy d.videoUrl = true := by
        have := h'
        simp only [specClaimAborts, Bool.or_eq_false_iff, Bool.not_eq_false'] at this
        exact this.1.1.1
      have habort2 : specClaimAborts
          (some { d with processingStatus := some PStatus.processing }) = true := by
        simp [specClaimAborts, hv]
      refine ⟨by simp [h'], by simp, fun _ => ⟨d, rfl, rfl⟩, fun _ => ?_⟩
      rw [markProcessing_abort _ habort2]

theorem claim_C4_witness :
    ∃ d, (some { videoUrl := some "clip.mp4" } : Option ClipDoc) = some d ∧
      markProcessing (some { videoUrl := some "clip.mp4" }) =
        (some d, some { d with processingStatus := some PStatus.processing }) :=
  (claim_C4 (some { videoUrl := some "clip.mp4" })).2.2.1 (by decide)

/-! ## C5: failure path of the conversion pipeline -/

/-- C5: once a document is successfully claimed, a failure in the
download, probe/transcode, upload or completion step leaves the stored
document with status error and that failure's non-empty message, and the
output URL field is untouched (hence still unset). -/
theorem claim_C5 (guildId docId : String) (d : ClipDoc) (env : PipeEnv) (m : String)
    (hclaim : specClaimAborts (some d) = false)
    (hfail : firstPipelineError env = some m) (hm : m ≠ "") :
    ∃ r, processClipDoc guildId docId (some d) env = some r
      ∧ r.processingStatus = some PStatus.error
      ∧ r.errorMessage = some m ∧ m ≠ ""
      ∧ r.gifUrl = d.gifUrl ∧ strTruthy r.gifUrl = false := by
  have h' := hclaim
  simp only [specClaimAborts, Bool.or_eq_false_iff, Bool.not_eq_false'] at h'
  obtain ⟨⟨⟨hv, hg⟩, _⟩, hc⟩ := h'
  refine ⟨errorUpdate { d with processingStatus := some PStatus.processing } m,
    ?_, rfl, rfl, hm, rfl, by simpa [errorUpdate] using hg⟩
  obtain ⟨dl, cv, up, fw, urlOf, folder⟩ := env
  cases dl with
  | error mdl =>
      have hmm : mdl = m := by simpa [firstPipelineError] using hfail
      subst hmm
      simp [processClipDoc, hg, hc, hv, markProcessing_not_abort d hclaim]
  | ok u =>
    cases cv with
    | error mcv =>
        have hmm : mcv = m := by simpa [firstPipelineError] using hfail
        subst hmm
        simp [processClipDoc, hg, hc, hv, markProcessing_not_abort d hclaim]
    | ok dur =>
      cases up with
      | error mup =>
          have hmm : mup = m := by simpa [firstPipelineError] using hfail
          subst hmm
          simp [processClipDoc, hg, hc, hv, markProcessing_not_abort d hclaim]
      | ok u2 =>
        cases fw with
        | error mfw =>
            have hmm : mfw = m := by simpa [firstPipelineError] using hfail
            subst hmm
            simp [processClipDoc, hg, hc, hv, markProcessing_not_abort d hclaim]
        | ok u3 =>
            exact absurd hfail (by simp [firstPipelineError])

theorem claim_C5_witness :
    ∃ r, processClipDoc "g1" "doc1" (some { videoUrl := some "clip.mp4" })
        ⟨Except.error "download failed", Except.ok 3, Except.ok (), Except.ok (),
          fun s => s, none⟩ = some r
      ∧ r.processingStatus = some PStatus.error
      ∧ r.errorMessage = some "download failed" ∧ "download failed" ≠ ""
      ∧ r.gifUrl = ({ videoUrl := some "clip.mp4" } : ClipDoc).gifUrl
      ∧ strTruthy r.gifUrl = false :=
  claim_C5 "g1" "doc1" { videoUrl := some "clip.mp4" }
    ⟨Except.error "download failed", Except.ok 3, Except.ok (), Except.ok (),
      fun s => s, none⟩ "download failed" (by decide) rfl (by decide)

/-! ## C7: start idempotence and timer uniqueness -/

theorem raidStep_toList (s : SchedState) (e : SchedEvent)
    (h : s.liveIntervals = s.active.toList) :
    (raidSchedStep s e).liveIntervals = (raidSchedStep s e).active.toList := by
  cases e with
  | startCall =>
      cases hact : s.active with
      | some i =>
          have h' : s.liveIntervals = [i] := by rw [h, hact]; rfl
          simp [raidSchedStep, hact, h']
      | none =>
          have h' : s.liveIntervals = [] := by rw [h, hact]; rfl
          simp [raidSchedStep, hact, h']
  | timeoutFire => simpa [raidSchedStep] using h
  | bootstrapCall =>
      cases hact : s.active with
      | some i =>
          have h' : s.liveIntervals = [i] := by rw [h, hact]; rfl
          simp [raidSchedStep, clearActive, hact, h', List.erase_cons_head]
      | none =>
          have h' : s.liveIntervals = [] := by rw [h, hact]; rfl
          simp [raidSchedStep, clearActive, hact, h']
  | stopCall =>
      cases hact : s.active with
      | some i =>
          have h' : s.liveIntervals = [i] := by rw [h, hact]; rfl
          simp [clearActive, raidSchedStep, hact, h', List.erase_cons_head]
      | none => simpa [clearActive, raidSchedStep, hact] using h

theorem raidRun_toList (events : List SchedEvent) : ∀ s : SchedState,
    s.liveIntervals = s.active.toList →
    (raidSchedRun s events).liveIntervals = (raidSchedRun s events).active.toList := by
  induction events with
  | nil => intro s h; simpa [raidSchedRun] using h
  | cons e es ih =>
      intro s h
      simpa [raidSchedRun] using ih (raidSchedStep s e) (raidStep_toList s e h)

/-- C7 counterexample: the claim says that after any sequence of start and
bootstrap calls at most one interval timer exists per (guild, tracker)
pair.  Two VIP start calls inside the 10-second stagger window both pass
the activeTrackers guard; when their two delayed callbacks fire, two
interval timers exist (the second overwrites the map entry without
clearing the first). -/
theorem claim_C7_counterexample :
    ¬ ((vipSchedRun schedInit
        [SchedEvent.startCall, SchedEvent.startCall,
         SchedEvent.timeoutFire, SchedEvent.timeoutFire]).liveIntervals.length ≤ 1) := by
  decide

/-- C7 (amended): a start call while the interval is installed is a no-op
for both trackers; for the raid pile tracker (whose start has no stagger
timeout) every sequence of start/bootstrap/stop events leaves at most one
live interval; for the VIP tracker two start calls before the first
delayed callback fires leave two live intervals. -/
theorem claim_C7 :
    (∀ s : SchedState, s.active.isSome = true →
        vipSchedStep s SchedEvent.startCall = s)
    ∧ (∀ s : SchedState, s.active.isSome = true →
        raidSchedStep s SchedEvent.startCall = s)
    ∧ (∀ events : List SchedEvent,
        (raidSchedRun schedInit events).liveIntervals.length ≤ 1)
    ∧ (vipSchedRun schedInit
        [SchedEvent.startCall, SchedEvent.startCall,
         SchedEvent.timeoutFire, SchedEvent.timeoutFire]).liveIntervals.length = 2 := by
  refine ⟨?_, ?_, ?_, by decide⟩
  · intro s h
    simp [vipSchedStep, h]
  · intro s h
    simp [raidSchedStep, h]
  · intro events
    have h := raidRun_toList events schedInit (by simp [schedInit])
    rw [h]
    cases (raidSchedRun schedInit events).active <;> simp

theorem claim_C7_witness :
    vipSchedStep ⟨0, some 7, [7], 8⟩ SchedEvent.startCall = ⟨0, some 7, [7], 8⟩
    ∧ raidSchedStep ⟨0, some 7, [7], 8⟩ SchedEvent.startCall = ⟨0, some 7, [7], 8⟩
    ∧ (raidSchedRun schedInit
        [SchedEvent.bootstrapCall, SchedEvent.bootstrapCall]).liveIntervals.length ≤ 1 :=
  ⟨claim_C7.1 ⟨0, some 7, [7], 8⟩ (by decide),
   claim_C7.2.1 ⟨0, some 7, [7], 8⟩ (by decide),
   claim_C7.2.2.1 [SchedEvent.bootstrapCall, SchedEvent.bootstrapCall]⟩

/-! ## C10: the shared spotlight index -/

/-- C10: the Community Pool spotlight index is one module-level variable
shared by every guild: a pass for any guild applies the same update to it
(checkPoolBody returns the advanced shared index whatever the guild's own
store is), a bootstrap overwrites it independently of its prior value (0,
then the embedded pass advances from 0 when a configuration is persisted),
and the spotlight selected for guild A's roster differs depending on
whether a pass for guild B ran before, with A's own inputs unchanged. -/
theorem claim_C10 :
    (∀ (idx : Nat) (g g' : String) (live : List Entity),
        poolIdxStep idx (PoolEvent.passFor g live) =
          poolIdxStep idx (PoolEvent.passFor g' live))
    ∧ (∀ (store : PoolStore) (spotClipId : Option String) (live : List Entity)
        (idx : Nat) (env : TrackEnv) (isInitial : Bool) (n : Nat),
        (checkPoolBody store spotClipId live idx env isInitial n).2.2.2.1 =
          (spotlightSelect idx (sortByStart live)).1)
    ∧ (∀ (idx : Nat) (g : String) (live : List Entity), sortByStart live ≠ [] →
        poolIdxStep idx (PoolEvent.passFor g live) =
          (idx + 1) % (sortByStart live).length)
    ∧ (∀ (idx idx' : Nat) (g g' : String) (cfg : Bool) (live : List Entity),
        poolIdxStep idx (PoolEvent.bootstrapFor g cfg live) =
          poolIdxStep idx' (PoolEvent.bootstrapFor g' cfg live))
    ∧ (∀ (idx : Nat) (g : String) (live : List Entity),
        poolIdxStep idx (PoolEvent.bootstrapFor g false live) = 0)
    ∧ (spotlightSelect (runPoolIdx 0 [])
          (sortByStart [Entity.mk "a1" 1, Entity.mk "a2" 2])).2
        ≠ (spotlightSelect
            (runPoolIdx 0 [PoolEvent.passFor "B"
              [Entity.mk "b1" 1, Entity.mk "b2" 2, Entity.mk "b3" 3]])
            (sortByStart [Entity.mk "a1" 1, Entity.mk "a2" 2])).2 := by
  refine ⟨fun idx g g' live => rfl, fun store c live idx env ini n => rfl,
    ?_, fun idx idx' g g' cfg live => rfl, fun idx g live => rfl, by decide⟩
  intro idx g live h
  have hlen : 0 < (sortByStart live).length := by
    cases hs : sortByStart live with
    | nil => exact absurd hs h
    | cons x xs => simp [hs]
  simp [poolIdxStep, spotlightSelect, hlen]

theorem claim_C10_witness :
    poolIdxStep 4 (PoolEvent.passFor "guildA" [Entity.mk "x" 1, Entity.mk "y" 2]) =
      (4 + 1) % (sortByStart [Entity.mk "x" 1, Entity.mk "y" 2]).length :=
  claim_C10.2.2.1 4 "guildA" [Entity.mk "x" 1, Entity.mk "y" 2] (by decide)

/-! ## Association-list lemmas -/

theorem lookupA_cons (k' v : String) (cs : List (String × String)) (k : String) :
    lookupA ((k', v) :: cs) k = if k' == k then some v else lookupA cs k := by
  by_cases h : k' == k
  · simp [lookupA, List.find?_cons, h]
  · simp only [Bool.not_eq_true] at h
    simp [lookupA, List.find?_cons, h]

theorem lookupA_mem {cs : List (String × String)} {k v : String}
    (h : lookupA cs k = some v) : (k, v) ∈ cs := by
  induction cs with
  | nil => simp [lookupA] at h
  | cons p ps ih =>
      rw [show p = (p.1, p.2) from rfl, lookupA_cons] at h
      by_cases hk : p.1 == k
      · rw [if_pos hk] at h
        have hk' : p.1 = k := by simpa using hk
        have hv : p.2 = v := by simpa using h
        have hp : p = (k, v) := by rw [← hk', ← hv]
        rw [← hp]
        exact List.mem_cons_self p ps
      · rw [if_neg hk] at h
        exact List.mem_cons_of_mem _ (ih h)

theorem lookupA_eq_none {cs : List (String × String)} {k : String} :
    lookupA cs k = none ↔ ∀ q ∈ cs, q.1 ≠ k := by
  induction cs with
  | nil => simp [lookupA]
  | cons p ps ih =>
      rw [show p = (p.1, p.2) from rfl, lookupA_cons]
      by_cases hk : p.1 == k
      · have : p.1 = k := by simpa using hk
        simp [hk, this]
      · have hne : p.1 ≠ k := by simpa using hk
        simp [hk, hne, ih]

theorem lookupA_isNone_keys (cs : List (String × String)) (k : String) :
    lookupA cs k = none ↔ (keysA cs).contains k = false := by
  rw [lookupA_eq_none]
  constructor
  · intro h
    by_contra hc
    have hc' : (keysA cs).contains k = true := by
      cases hcc : (keysA cs).contains k
      · exact absurd hcc hc
      · rfl
    have hk : k ∈ keysA cs := List.elem_iff.mp hc'
    rcases List.mem_map.mp hk with ⟨q, hq, hq1⟩
    exact h q hq hq1
  · intro h q hq hq1
    have : k ∈ keysA cs := List.mem_map.mpr ⟨q, hq, hq1⟩
    have : (keysA cs).contains k = true := List.elem_iff.mpr this
    rw [this] at h
    cases h

theorem lookupA_mapReplace_ne (cs : List (String × String)) (k v k' : String)
    (h : k' ≠ k) :
    lookupA (cs.map (fun p => if p.1 == k then (k, v) else p)) k' = lookupA cs k' := by
  induction cs with
  | nil => simp
  | cons p ps ih =>
      rw [List.map_cons]
      by_cases hk : p.1 == k
      · rw [if_pos hk]
        rw [lookupA_cons, show p = (p.1, p.2) from rfl, lookupA_cons]
        have h1 : ¬ (k == k') = true := by
          simp only [beq_iff_eq]
          exact fun e => h e.symm
        have h2 : ¬ (p.1 == k') = true := by
          have hpk : p.1 = k := by simpa using hk
          rw [hpk]
          exact h1
        rw [if_neg h1, if_neg h2]
        exact ih
      · rw [if_neg hk]
        rw [show p = (p.1, p.2) from rfl, lookupA_cons, lookupA_cons]
        by_cases hp : p.1 == k'
        · rw [if_pos hp, if_pos hp]
        · rw [if_neg hp, if_neg hp]
          exact ih

theorem lookupA_append_single_ne (cs : List (String × String)) (k v k' : String)
    (h : k' ≠ k) : lookupA (cs ++ [(k, v)]) k' = lookupA cs k' := by
  induction cs with
  | nil =>
      rw [List.nil_append, lookupA_cons]
      have h1 : ¬ (k == k') = true := by
        simp only [beq_iff_eq]
        exact fun e => h e.symm
      rw [if_neg h1]
  | cons p ps ih =>
      rw [List.cons_append]
      rw [show p = (p.1, p.2) from rfl, lookupA_cons, lookupA_cons]
      by_cases hp : p.1 == k'
      · rw [if_pos hp, if_pos hp]
      · rw [if_neg hp, if_neg hp]
        exact ih

theorem lookupA_setA_ne (cs : List (String × String)) (k v k' : String)
    (h : k' ≠ k) : lookupA (setA cs k v) k' = lookupA cs k' := by
  unfold setA
  by_cases hany : cs.any (fun p => p.1 == k)
  · rw [if_pos hany]
    exact lookupA_mapReplace_ne cs k v k' h
  · rw [if_neg hany]
    exact lookupA_append_single_ne cs k v k' h

theorem lookupA_eraseA_ne (cs : List (String × String)) (k k' : String)
    (h : k' ≠ k) : lookupA (eraseA cs k) k' = lookupA cs k' := by
  induction cs with
  | nil => simp [eraseA]
  | cons p ps ih =>
      unfold eraseA
      rw [List.filter_cons]
      by_cases hk : p.1 == k
      · have hkeep : (p.1 != k) = false := by simp [bne]; simpa using hk
        rw [hkeep]
        simp only [Bool.false_eq_true, if_false]
        rw [show p = (p.1, p.2) from rfl, lookupA_cons]
        have hpk : p.1 = k := by simpa using hk
        have : ¬ (p.1 == k') = true := by simp [hpk]; exact fun e => h e.symm
        rw [if_neg this]
        exact ih
      · have hkeep : (p.1 != k) = true := by simp [bne]; simpa using hk
        rw [hkeep]
        simp only [if_true]
        rw [show p = (p.1, p.2) from rfl, lookupA_cons, lookupA_cons]
        by_cases hp : p.1 == k'
        · rw [if_pos hp, if_pos hp]
        · rw [if_neg hp, if_neg hp]
          exact ih

theorem lookupA_filter_keep (cs : List (String × String)) (L : List String)
    (k : String) (hk : L.contains k = true) :
    lookupA (cs.filter (fun p => L.contains p.1)) k = lookupA cs k := by
  induction cs with
  | nil => simp
  | cons p ps ih =>
      rw [List.filter_cons]
      by_cases hin : L.contains p.1 = true
      · simp only [hin, if_true]
        rw [show p = (p.1, p.2) from rfl, lookupA_cons, lookupA_cons]
        by_cases hp : p.1 == k
        · rw [if_pos hp, if_pos hp]
        · rw [if_neg hp, if_neg hp]
          exact ih
      · have hin' : L.contains p.1 = false := by
          cases hc : L.contains p.1
          · rfl
          · exact absurd hc hin
        have hp : ¬ (p.1 == k) = true := by
          intro hpk
          have he : p.1 = k := by simpa using hpk
          rw [he, hk] at hin'
          cases hin'
        simp only [hin', Bool.false_eq_true, if_false]
        rw [show p = (p.1, p.2) from rfl, lookupA_cons, if_neg hp]
        exact ih

theorem lookupA_nodup_mem (cs : List (String × String))
    (hnd : (keysA cs).Nodup) {q : String × String} (hq : q ∈ cs) :
    lookupA cs q.1 = some q.2 := by
  induction cs with
  | nil => cases hq
  | cons p ps ih =>
      rw [keysA, List.map_cons, List.nodup_cons] at hnd
      rcases List.mem_cons.mp hq with rfl | hq'
      · rw [show q = (q.1, q.2) from rfl, lookupA_cons, if_pos (by simp)]
      · rw [show p = (p.1, p.2) from rfl, lookupA_cons]
        have hne : ¬ (p.1 == q.1) = true := by
          simp only [beq_iff_eq]
          intro he
          exact hnd.1 (he ▸ List.mem_map.mpr ⟨q, hq', rfl⟩)
        rw [if_neg hne]
        exact ih hnd.2 hq'

/-! ## Sweep and live-loop lemmas (checkVips) -/

theorem filterMap_ext_on {α β : Type} {f g : α → Option β} :
    ∀ {l : List α}, (∀ a ∈ l, f a = g a) → l.filterMap f = l.filterMap g := by
  intro l
  induction l with
  | nil => intro _; rfl
  | cons a as ih =>
      intro h
      rw [List.filterMap_cons, List.filterMap_cons, h a (List.mem_cons_self a as)]
      cases g a with
      | none => exact ih (fun x hx => h x (List.mem_cons_of_mem a hx))
      | some b => rw [ih (fun x hx => h x (List.mem_cons_of_mem a hx))]

theorem sweepVip_cons_live {L : List String} {k : String} (m : String)
    (ps clips : List (String × String)) (hk : L.contains k = true) :
    sweepVip L ((k, m) :: ps) clips =
      ((sweepVip L ps clips).1, (k, m) :: (sweepVip L ps clips).2.1,
        (sweepVip L ps clips).2.2) := by
  simp only [sweepVip]
  rw [if_pos hk]

theorem sweepVip_cons_off_some {L : List String} {k cm : String} (m : String)
    (ps clips : List (String × String)) (hk : L.contains k = false)
    (hcl : lookupA clips k = some cm) :
    sweepVip L ((k, m) :: ps) clips =
      (Op.delCard m :: Op.delClip cm :: (sweepVip L ps (eraseA clips k)).1,
        (sweepVip L ps (eraseA clips k)).2) := by
  simp only [sweepVip, hk, Bool.false_eq_true, if_false, hcl]

theorem sweepVip_cons_off_none {L : List String} {k : String} (m : String)
    (ps clips : List (String × String)) (hk : L.contains k = false)
    (hcl : lookupA clips k = none) :
    sweepVip L ((k, m) :: ps) clips =
      (Op.delCard m :: (sweepVip L ps clips).1, (sweepVip L ps clips).2) := by
  simp only [sweepVip, hk, Bool.false_eq_true, if_false, hcl]

theorem sweepVip_deletes (L : List String) :
    ∀ (cs clips : List (String × String)),
      cardDeleteIds (sweepVip L cs clips).1 =
        (cs.filter (fun p => !(L.contains p.1))).map Prod.snd := by
  intro cs
  induction cs with
  | nil => intro clips; simp [sweepVip, cardDeleteIds]
  | cons p ps ih =>
      intro clips
      obtain ⟨k, m⟩ := p
      by_cases hk : L.contains k = true
      · rw [sweepVip_cons_live m ps clips hk]
        simp only [List.filter_cons, hk, Bool.not_true, Bool.false_eq_true, if_false]
        exact ih clips
      · have hk' : L.contains k = false := by
          cases hc : L.contains k
          · rfl
          · exact absurd hc hk
        cases hcl : lookupA clips k with
        | some cm =>
            rw [sweepVip_cons_off_some m ps clips hk' hcl]
            simp only [cardDeleteIds, List.filterMap_cons, List.filter_cons, hk',
              Bool.not_false, if_true]
            have := ih (eraseA clips k)
            simp only [cardDeleteIds] at this
            rw [this]
            rfl
        | none =>
            rw [sweepVip_cons_off_none m ps clips hk' hcl]
            simp only [cardDeleteIds, List.filterMap_cons, List.filter_cons, hk',
              Bool.not_false, if_true]
            have := ih clips
            simp only [cardDeleteIds] at this
            rw [this]
            rfl

theorem sweepVip_cards (L : List String) :
    ∀ (cs clips : List (String × String)),
      (sweepVip L cs clips).2.1 = cs.filter (fun p => L.contains p.1) := by
  intro cs
  induction cs with
  | nil => intro clips; simp [sweepVip]
  | cons p ps ih =>
      intro clips
      obtain ⟨k, m⟩ := p
      by_cases hk : L.contains k = true
      · rw [sweepVip_cons_live m ps clips hk]
        simp only [List.filter_cons, hk, if_true]
        rw [ih clips]
      · have hk' : L.contains k = false := by
          cases hc : L.contains k
          · rfl
          · exact absurd hc hk
        cases hcl : lookupA clips k with
        | some cm =>
            rw [sweepVip_cons_off_some m ps clips hk' hcl]
            simp only [List.filter_cons, hk', Bool.false_eq_true, if_false]
            exact ih (eraseA clips k)
        | none =>
            rw [sweepVip_cons_off_none m ps clips hk' hcl]
            simp only [List.filter_cons, hk', Bool.false_eq_true, if_false]
            exact ih clips

theorem sweepVip_ops_kind (L : List String) :
    ∀ (cs clips : List (String × String)), ∀ op ∈ (sweepVip L cs clips).1,
      (∃ x, op = Op.delCard x) ∨ (∃ x, op = Op.delClip x) := by
  intro cs
  induction cs with
  | nil => intro clips op hop; simp [sweepVip] at hop
  | cons p ps ih =>
      intro clips op hop
      obtain ⟨k, m⟩ := p
      by_cases hk : L.contains k = true
      · rw [sweepVip_cons_live m ps clips hk] at hop
        exact ih clips op hop
      · have hk' : L.contains k = false := by
          cases hc : L.contains k
          · rfl
          · exact absurd hc hk
        cases hcl : lookupA clips k with
        | some cm =>
            rw [sweepVip_cons_off_some m ps clips hk' hcl] at hop
            rcases List.mem_cons.mp hop with rfl | hop
            · exact Or.inl ⟨m, rfl⟩
            rcases List.mem_cons.mp hop with rfl | hop
            · exact Or.inr ⟨cm, rfl⟩
            exact ih (eraseA clips k) op hop
        | none =>
            rw [sweepVip_cons_off_none m ps clips hk' hcl] at hop
            rcases List.mem_cons.mp hop with rfl | hop
            · exact Or.inl ⟨m, rfl⟩
            exact ih clips op hop

theorem sweepVip_clipDeletes (L : List String) :
    ∀ (cs clips : List (String × String)), (keysA cs).Nodup →
      clipDeleteIds (sweepVip L cs clips).1 =
        (cs.filter (fun p => !(L.contains p.1))).filterMap
          (fun p => lookupA clips p.1) := by
  intro cs
  induction cs with
  | nil => intro clips _; simp [sweepVip, clipDeleteIds]
  | cons p ps ih =>
      intro clips hnd
      obtain ⟨k, m⟩ := p
      rw [keysA, List.map_cons, List.nodup_cons] at hnd
      have hknotin : k ∉ keysA ps := hnd.1
      have hndps : (keysA ps).Nodup := hnd.2
      have hlk : ∀ q ∈ ps.filter (fun p => !(L.contains p.1)),
          lookupA (eraseA clips k) q.1 = lookupA clips q.1 := by
        intro q hq
        have hq' : q ∈ ps := List.mem_of_mem_filter hq
        have : q.1 ≠ k := by
          intro he
          exact hknotin (he ▸ List.mem_map.mpr ⟨q, hq', rfl⟩)
        exact lookupA_eraseA_ne clips k q.1 this
      by_cases hk : L.contains k = true
      · rw [sweepVip_cons_live m ps clips hk]
        simp only [List.filter_cons, hk, Bool.not_true, Bool.false_eq_true, if_false]
        exact ih clips hndps
      · have hk' : L.contains k = false := by
          cases hc : L.contains k
          · rfl
          · exact absurd hc hk
        cases hcl : lookupA clips k with
        | some cm =>
            rw [sweepVip_cons_off_some m ps clips hk' hcl]
            simp only [clipDeleteIds, List.filterMap_cons, List.filter_cons, hk',
              Bool.not_false, if_true, hcl]
            have := ih (eraseA clips k) hndps
            simp only [clipDeleteIds] at this
            rw [this, filterMap_ext_on hlk]
        | none =>
            rw [sweepVip_cons_off_none m ps clips hk' hcl]
            simp only [clipDeleteIds, List.filterMap_cons, List.filter_cons, hk',
              Bool.not_false, if_true, hcl]
            have := ih clips hndps
            simp only [clipDeleteIds] at this
            rw [this]

theorem sweepVip_clips_empty :
    ∀ (cs clips : List (String × String)),
      (sweepVip [] cs clips).2.2 =
        clips.filter (fun q => !((keysA cs).contains q.1)) := by
  intro cs
  induction cs with
  | nil =>
      intro clips
      simp [sweepVip, keysA]
  | cons p ps ih =>
      intro clips
      obtain ⟨k, m⟩ := p
      have hk' : ([] : List String).contains k = false := rfl
      have hkeys : keysA ((k, m) :: ps) = k :: keysA ps := rfl
      cases hcl : lookupA clips k with
      | some cm =>
          rw [sweepVip_cons_off_some m ps clips hk' hcl]
          rw [ih (eraseA clips k)]
          unfold eraseA
          rw [List.filter_filter]
          rw [hkeys]
          refine List.filter_congr ?_
          intro q _
          rw [List.contains_cons, Bool.not_or, Bool.and_comm]
          rfl
      | none =>
          rw [sweepVip_cons_off_none m ps clips hk' hcl]
          rw [ih clips]
          rw [hkeys]
          refine List.filter_congr ?_
          intro q hq
          have hqk : q.1 ≠ k := (lookupA_eq_none.mp hcl) q hq
          rw [List.contains_cons]
          have : (q.1 == k) = false := by
            simp only [beq_eq_false_iff_ne, ne_eq]
            exact hqk
          rw [this, Bool.false_or]

theorem vipClipSeg_ops_kind (env : TrackEnv) (eid : String)
    (clips : List (String × String)) (n : Nat) :
    ∀ op ∈ (vipClipSeg env eid clips n).1,
      (∃ a b, op = Op.createClip a b) ∨ (∃ x, op = Op.delClip x) := by
  intro op hop
  unfold vipClipSeg at hop
  by_cases h1 : env.clipOpts eid = true
  · by_cases h2 : env.clipSendOk eid = true
    · simp only [h1, h2, if_true] at hop
      cases hcl : lookupA clips eid with
      | some o =>
          rw [hcl] at hop
          rcases List.mem_cons.mp hop with rfl | hop
          · exact Or.inl ⟨eid, mkId n, rfl⟩
          rcases List.mem_cons.mp hop with rfl | hop
          · exact Or.inr ⟨o, rfl⟩
          cases hop
      | none =>
          rw [hcl] at hop
          rcases List.mem_cons.mp hop with rfl | hop
          · exact Or.inl ⟨eid, mkId n, rfl⟩
          simp at hop
    · have h2' : env.clipSendOk eid = false := by
        cases hc : env.clipSendOk eid
        · rfl
        · exact absurd hc h2
      simp only [h1, h2', if_true, Bool.false_eq_true, if_false, List.nil_append] at hop
      cases hcl : lookupA clips eid with
      | some o =>
          rw [hcl] at hop
          rcases List.mem_cons.mp hop with rfl | hop
          · exact Or.inr ⟨o, rfl⟩
          cases hop
      | none =>
          rw [hcl] at hop
          cases hop
  · have h1' : env.clipOpts eid = false := by
      cases hc : env.clipOpts eid
      · rfl
      · exact absurd hc h1
    simp only [h1', Bool.false_eq_true, if_false, List.nil_append] at hop
    cases hcl : lookupA clips eid with
    | some o =>
        rw [hcl] at hop
        rcases List.mem_cons.mp hop with rfl | hop
        · exact Or.inr ⟨o, rfl⟩
        cases hop
    | none =>
        rw [hcl] at hop
        cases hop

theorem cardStepVip_ops_kind (env : TrackEnv) (cards : List (String × String))
    (eid : String) (n : Nat) :
    ∀ op ∈ (cardStepVip env cards eid n).1,
      (∃ x, op = Op.editCard x) ∨ (∃ a b, op = Op.createCard a b) := by
  intro op hop
  unfold cardStepVip at hop
  cases hcl : lookupA cards eid with
  | some m =>
      rw [hcl] at hop
      by_cases hr : env.resolves m = true
      · simp only [hr, if_true] at hop
        rcases List.mem_cons.mp hop with rfl | hop
        · exact Or.inl ⟨m, rfl⟩
        cases hop
      · have hr' : env.resolves m = false := by
          cases hc : env.resolves m
          · rfl
          · exact absurd hc hr
        simp only [hr', Bool.false_eq_true, if_false] at hop
        rcases List.mem_cons.mp hop with rfl | hop
        · exact Or.inr ⟨eid, mkId n, rfl⟩
        cases hop
  | none =>
      rw [hcl] at hop
      rcases List.mem_cons.mp hop with rfl | hop
      · exact Or.inr ⟨eid, mkId n, rfl⟩
      cases hop

theorem footerStep_ops_kind (env : TrackEnv) (fid : Option String) (count : Nat)
    (ini : Bool) (n : Nat) :
    ∀ op ∈ (footerStep env fid count ini n).1,
      (∃ c, op = Op.editFooter c) ∨ (∃ x, op = Op.delFooter x)
        ∨ (∃ x c, op = Op.createFooter x c) := by
  intro op hop
  unfold footerStep at hop
  cases fid with
  | some f =>
      by_cases hr : env.resolves f = true
      · by_cases hl : env.footerIsLast = true
        · simp only [hr, hl, if_true] at hop
          rcases List.mem_cons.mp hop with rfl | hop
          · exact Or.inl ⟨count, rfl⟩
          cases hop
        · have hl' : env.footerIsLast = false := by
            cases hc : env.footerIsLast
            · rfl
            · exact absurd hc hl
          simp only [hr, hl', if_true, Bool.false_eq_true, if_false] at hop
          rcases List.mem_cons.mp hop with rfl | hop
          · exact Or.inr (Or.inl ⟨f, rfl⟩)
          rcases List.mem_cons.mp hop with rfl | hop
          · exact Or.inr (Or.inr ⟨mkId n, count, rfl⟩)
          cases hop
      · have hr' : env.resolves f = false := by
          cases hc : env.resolves f
          · rfl
          · exact absurd hc hr
        cases ini with
        | true => simp only [hr', Bool.false_eq_true, if_false, Bool.not_true] at hop; cases hop
        | false =>
            simp only [hr', Bool.false_eq_true, if_false, Bool.not_false, if_true] at hop
            rcases List.mem_cons.mp hop with rfl | hop
            · exact Or.inr (Or.inr ⟨mkId n, count, rfl⟩)
            cases hop
  | none =>
      cases ini with
      | true => simp only [Bool.not_true, Bool.false_eq_true, if_false] at hop; cases hop
      | false =>
          simp only [Bool.not_false, if_true] at hop
          rcases List.mem_cons.mp hop with rfl | hop
          · exact Or.inr (Or.inr ⟨mkId n, count, rfl⟩)
          cases hop

theorem cardDeleteIds_append (t1 t2 : List Op) :
    cardDeleteIds (t1 ++ t2) = cardDeleteIds t1 ++ cardDeleteIds t2 := by
  simp [cardDeleteIds, List.filterMap_append]

theorem cardCreateEids_append (t1 t2 : List Op) :
    cardCreateEids (t1 ++ t2) = cardCreateEids t1 ++ cardCreateEids t2 := by
  simp [cardCreateEids, List.filterMap_append]

theorem cardEditIds_append (t1 t2 : List Op) :
    cardEditIds (t1 ++ t2) = cardEditIds t1 ++ cardEditIds t2 := by
  simp [cardEditIds, List.filterMap_append]

theorem clipDeleteIds_append (t1 t2 : List Op) :
    clipDeleteIds (t1 ++ t2) = clipDeleteIds t1 ++ clipDeleteIds t2 := by
  simp [clipDeleteIds, List.filterMap_append]

theorem vipLive_cons (env : TrackEnv) (e : Entity) (es : List Entity)
    (cards clips : List (String × String)) (n : Nat) :
    vipLive env (e :: es) cards clips n =
      ((cardStepVip env cards e.id n).1 ++
        (vipClipSeg env e.id clips (cardStepVip env cards e.id n).2.2).1 ++
        (vipLive env es (cardStepVip env cards e.id n).2.1
          (vipClipSeg env e.id clips (cardStepVip env cards e.id n).2.2).2.1
          (vipClipSeg env e.id clips (cardStepVip env cards e.id n).2.2).2.2).1,
       (vipLive env es (cardStepVip env cards e.id n).2.1
          (vipClipSeg env e.id clips (cardStepVip env cards e.id n).2.2).2.1
          (vipClipSeg env e.id clips (cardStepVip env cards e.id n).2.2).2.2).2) := by
  simp only [vipLive]

theorem cardStepVip_edit (env : TrackEnv) (cards : List (String × String))
    (eid : String) (n : Nat) (m : String) (hcl : lookupA cards eid = some m)
    (hr : env.resolves m = true) :
    cardStepVip env cards eid n = ([Op.editCard m], cards, n) := by
  unfold cardStepVip
  rw [hcl]
  simp only [hr, if_true]

theorem cardStepVip_create (env : TrackEnv) (cards : List (String × String))
    (eid : String) (n : Nat) (hcl : lookupA cards eid = none) :
    cardStepVip env cards eid n =
      ([Op.createCard eid (mkId n)], setA cards eid (mkId n), n + 1) := by
  unfold cardStepVip
  rw [hcl]

theorem vipLive_spec (env : TrackEnv) :
    ∀ (live : List Entity) (cards clips : List (String × String)) (n : Nat),
      (entIds live).Nodup →
      (∀ e ∈ live, ∀ m, lookupA cards e.id = some m → env.resolves m = true) →
      cardDeleteIds (vipLive env live cards clips n).1 = []
      ∧ cardCreateEids (vipLive env live cards clips n).1 =
          (live.filter (fun e => (lookupA cards e.id).isNone)).map Entity.id
      ∧ cardEditIds (vipLive env live cards clips n).1 =
          live.filterMap (fun e => lookupA cards e.id) := by
  intro live
  induction live with
  | nil => intro cards clips n _ _; exact ⟨rfl, rfl, rfl⟩
  | cons e es ih =>
      intro cards clips n hnd hres
      have hnd2 : e.id ∉ entIds es ∧ (entIds es).Nodup := by
        rw [entIds, List.map_cons, List.nodup_cons] at hnd
        exact ⟨hnd.1, hnd.2⟩
      have hsegf : ∀ (clips' : List (String × String)) (n' : Nat),
          cardDeleteIds (vipClipSeg env e.id clips' n').1 = []
          ∧ cardCreateEids (vipClipSeg env e.id clips' n').1 = []
          ∧ cardEditIds (vipClipSeg env e.id clips' n').1 = [] := by
        intro clips' n'
        refine ⟨List.filterMap_eq_nil.mpr ?_, List.filterMap_eq_nil.mpr ?_,
          List.filterMap_eq_nil.mpr ?_⟩ <;>
          intro op hop <;>
          rcases vipClipSeg_ops_kind env e.id clips' n' op hop with ⟨a, b, rfl⟩ | ⟨x, rfl⟩ <;>
          rfl
      cases hcl : lookupA cards e.id with
      | some m =>
          have hrm : env.resolves m = true := hres e (List.mem_cons_self e es) m hcl
          rw [vipLive_cons, cardStepVip_edit env cards e.id n m hcl hrm]
          obtain ⟨hih1, hih2, hih3⟩ := ih cards
            (vipClipSeg env e.id clips n).2.1 (vipClipSeg env e.id clips n).2.2
            hnd2.2 (fun e' he' m' hm' => hres e' (List.mem_cons_of_mem e he') m' hm')
          obtain ⟨hs1, hs2, hs3⟩ := hsegf clips n
          refine ⟨?_, ?_, ?_⟩
          · rw [cardDeleteIds_append, cardDeleteIds_append, hs1, hih1]
            rfl
          · rw [cardCreateEids_append, cardCreateEids_append, hs2, hih2]
            rw [List.filter_cons]
            simp only [hcl, Option.isNone_some, Bool.false_eq_true, if_false]
            rfl
          · rw [cardEditIds_append, cardEditIds_append, hs3, hih3]
            rw [List.filterMap_cons, hcl]
            rfl
      | none =>
          rw [vipLive_cons, cardStepVip_create env cards e.id n hcl]
          have hne : ∀ e' ∈ es, e'.id ≠ e.id := by
            intro e' he' h
            exact hnd2.1 (h ▸ List.mem_map.mpr ⟨e', he', rfl⟩)
          have hconv : ∀ e' ∈ es,
              lookupA (setA cards e.id (mkId n)) e'.id = lookupA cards e'.id := by
            intro e' he'
            exact lookupA_setA_ne cards e.id (mkId n) e'.id (hne e' he')
          obtain ⟨hih1, hih2, hih3⟩ := ih (setA cards e.id (mkId n))
            (vipClipSeg env e.id clips (n + 1)).2.1
            (vipClipSeg env e.id clips (n + 1)).2.2
            hnd2.2
            (fun e' he' m' hm' =>
              hres e' (List.mem_cons_of_mem e he') m' ((hconv e' he') ▸ hm'))
          obtain ⟨hs1, hs2, hs3⟩ := hsegf clips (n + 1)
          refine ⟨?_, ?_, ?_⟩
          · rw [cardDeleteIds_append, cardDeleteIds_append, hs1, hih1]
            rfl
          · rw [cardCreateEids_append, cardCreateEids_append, hs2, hih2]
            rw [List.filter_congr (fun e' he' => by rw [hconv e' he'] :
              ∀ e' ∈ es, ((lookupA (setA cards e.id (mkId n)) e'.id).isNone : Bool) =
                (lookupA cards e'.id).isNone)]
            rw [List.filter_cons]
            simp only [hcl, Option.isNone_none, if_true]
            rfl
          · rw [cardEditIds_append, cardEditIds_append, hs3, hih3]
            rw [filterMap_ext_on (fun e' he' => hconv e' he')]
            rw [List.filterMap_cons, hcl]
            rfl

theorem filterMap_map_eq_nil {α β γ : Type} (g : α → β) (f : β → Option γ)
    (h : ∀ a, f (g a) = none) : ∀ l : List α, (l.map g).filterMap f = [] := by
  intro l
  induction l with
  | nil => rfl
  | cons a as ih => simp [List.filterMap_cons, h, ih]

theorem filterMap_map_eq_map {α β γ : Type} (g : α → β) (f : β → Option γ)
    (k : α → γ) (h : ∀ a, f (g a) = some (k a)) :
    ∀ l : List α, (l.map g).filterMap f = l.map k := by
  intro l
  induction l with
  | nil => rfl
  | cons a as ih => simp [List.filterMap_cons, h, ih]

theorem lookupA_isNone_eq (cs : List (String × String)) (k : String) :
    (lookupA cs k).isNone = !((keysA cs).contains k) := by
  cases hx : lookupA cs k with
  | none =>
      have := (lookupA_isNone_keys cs k).mp hx
      rw [this]
      rfl
  | some v =>
      cases hc : (keysA cs).contains k
      · have := (lookupA_isNone_keys cs k).mpr hc
        rw [this] at hx
        cases hx
      · rfl

theorem checkVipsBody_nil_roster (live : List Entity) (store : VipStore)
    (env : TrackEnv) (ini : Bool) (n : Nat) :
    checkVipsBody [] live store env ini n =
      ((valuesA store.cards).map Op.delCard ++ (valuesA store.clips).map Op.delClip ++
        (match store.footerId with
         | some f => if env.resolves f then [Op.editFooter 0] else []
         | none => []),
       { store with cards := [], clips := [] }, n) := by
  simp only [checkVipsBody, List.isEmpty_nil, if_true]

theorem checkVipsBody_cons_roster (r : String) (rs : List String)
    (live : List Entity) (store : VipStore) (env : TrackEnv) (ini : Bool) (n : Nat) :
    checkVipsBody (r :: rs) live store env ini n =
      ((sweepVip (entIds live) store.cards store.clips).1 ++
        (vipLive env live (sweepVip (entIds live) store.cards store.clips).2.1
          (sweepVip (entIds live) store.cards store.clips).2.2 n).1 ++
        (footerStep env store.footerId live.length ini
          (vipLive env live (sweepVip (entIds live) store.cards store.clips).2.1
            (sweepVip (entIds live) store.cards store.clips).2.2 n).2.2.2).1,
       { store with
          cards := (vipLive env live (sweepVip (entIds live) store.cards store.clips).2.1
            (sweepVip (entIds live) store.cards store.clips).2.2 n).2.1,
          clips := (vipLive env live (sweepVip (entIds live) store.cards store.clips).2.1
            (sweepVip (entIds live) store.cards store.clips).2.2 n).2.2.1,
          footerId := (footerStep env store.footerId live.length ini
            (vipLive env live (sweepVip (entIds live) store.cards store.clips).2.1
              (sweepVip (entIds live) store.cards store.clips).2.2 n).2.2.2).2.1 },
       (footerStep env store.footerId live.length ini
         (vipLive env live (sweepVip (entIds live) store.cards store.clips).2.1
           (sweepVip (entIds live) store.cards store.clips).2.2 n).2.2.2).2.2) := by
  simp only [checkVipsBody, List.isEmpty_cons, Bool.false_eq_true, if_false]


theorem cardDeleteIds_map_delCard : ∀ ms : List String,
    cardDeleteIds (ms.map Op.delCard) = ms := by
  intro ms
  induction ms with
  | nil => rfl
  | cons a as ih =>
      show a :: cardDeleteIds (as.map Op.delCard) = a :: as
      rw [ih]

theorem cardDeleteIds_map_delClip : ∀ ms : List String,
    cardDeleteIds (ms.map Op.delClip) = [] := by
  intro ms
  induction ms with
  | nil => rfl
  | cons a as ih => exact ih

theorem cardCreateEids_map_delCard : ∀ ms : List String,
    cardCreateEids (ms.map Op.delCard) = [] := by
  intro ms
  induction ms with
  | nil => rfl
  | cons a as ih => exact ih

theorem cardCreateEids_map_delClip : ∀ ms : List String,
    cardCreateEids (ms.map Op.delClip) = [] := by
  intro ms
  induction ms with
  | nil => rfl
  | cons a as ih => exact ih

theorem cardEditIds_map_delCard : ∀ ms : List String,
    cardEditIds (ms.map Op.delCard) = [] := by
  intro ms
  induction ms with
  | nil => rfl
  | cons a as ih => exact ih

theorem cardEditIds_map_delClip : ∀ ms : List String,
    cardEditIds (ms.map Op.delClip) = [] := by
  intro ms
  induction ms with
  | nil => rfl
  | cons a as ih => exact ih

theorem clipDeleteIds_map_delClip : ∀ ms : List String,
    clipDeleteIds (ms.map Op.delClip) = ms := by
  intro ms
  induction ms with
  | nil => rfl
  | cons a as ih =>
      show a :: clipDeleteIds (as.map Op.delClip) = a :: as
      rw [ih]

theorem clipDeleteIds_map_delCard : ∀ ms : List String,
    clipDeleteIds (ms.map Op.delCard) = [] := by
  intro ms
  induction ms with
  | nil => rfl
  | cons a as ih => exact ih

/-- The footer block of the empty-roster branch, for case analysis. -/
theorem footerEditOps_cases (fid : Option String) (env : TrackEnv) :
    (match fid with
     | some f => if env.resolves f then [Op.editFooter 0] else []
     | none => ([] : List Op)) = [Op.editFooter 0]
    ∨ (match fid with
       | some f => if env.resolves f then [Op.editFooter 0] else []
       | none => ([] : List Op)) = [] := by
  cases fid with
  | some f =>
      by_cases hr : env.resolves f = true
      · exact Or.inl (by simp [hr])
      · have hr' : env.resolves f = false := by
          cases hc : env.resolves f
          · rfl
          · exact absurd hc hr
        exact Or.inr (by simp [hr'])
  | none => exact Or.inr rfl

theorem checkVipsBody_cardOps (roster : List String) (live : List Entity)
    (store : VipStore) (env : TrackEnv) (ini : Bool) (n : Nat)
    (hL : (entIds live).Nodup)
    (hres : ∀ p ∈ store.cards, env.resolves p.2 = true)
    (hsub : ∀ e ∈ live, e.id ∈ roster) :
    cardDeleteIds (checkVipsBody roster live store env ini n).1 =
      (store.cards.filter (fun p => !((entIds live).contains p.1))).map Prod.snd
    ∧ cardCreateEids (checkVipsBody roster live store env ini n).1 =
      (live.filter (fun e => !((keysA store.cards).contains e.id))).map Entity.id
    ∧ cardEditIds (checkVipsBody roster live store env ini n).1 =
      live.filterMap (fun e => lookupA store.cards e.id) := by
  cases roster with
  | nil =>
      have hlive : live = [] := by
        cases live with
        | nil => rfl
        | cons e es => exact absurd (hsub e (List.mem_cons_self e es)) (List.not_mem_nil e.id)
      subst hlive
      rw [checkVipsBody_nil_roster]
      rcases footerEditOps_cases store.footerId env with hf | hf
      · rw [hf]
        refine ⟨?_, ?_, ?_⟩
        · rw [cardDeleteIds_append, cardDeleteIds_append, cardDeleteIds_map_delCard,
            cardDeleteIds_map_delClip]
          simp [valuesA, entIds]
          rfl
        · rw [cardCreateEids_append, cardCreateEids_append, cardCreateEids_map_delCard,
            cardCreateEids_map_delClip]
          rfl
        · rw [cardEditIds_append, cardEditIds_append, cardEditIds_map_delCard,
            cardEditIds_map_delClip]
          rfl
      · rw [hf]
        refine ⟨?_, ?_, ?_⟩
        · rw [cardDeleteIds_append, cardDeleteIds_append, cardDeleteIds_map_delCard,
            cardDeleteIds_map_delClip]
          simp [valuesA, entIds]
          rfl
        · rw [cardCreateEids_append, cardCreateEids_append, cardCreateEids_map_delCard,
            cardCreateEids_map_delClip]
          rfl
        · rw [cardEditIds_append, cardEditIds_append, cardEditIds_map_delCard,
            cardEditIds_map_delClip]
          rfl
  | cons r rs =>
      rw [checkVipsBody_cons_roster]
      have hres1 : ∀ e ∈ live, ∀ m,
          lookupA (sweepVip (entIds live) store.cards store.clips).2.1 e.id = some m →
          env.resolves m = true := by
        intro e he m hm
        have hmem := lookupA_mem hm
        rw [sweepVip_cards] at hmem
        exact hres (e.id, m) (List.mem_of_mem_filter hmem)
      obtain ⟨hl1, hl2, hl3⟩ := vipLive_spec env live
        (sweepVip (entIds live) store.cards store.clips).2.1
        (sweepVip (entIds live) store.cards store.clips).2.2 n hL hres1
      have hconv : ∀ e ∈ live,
          lookupA (sweepVip (entIds live) store.cards store.clips).2.1 e.id =
            lookupA store.cards e.id := by
        intro e he
        rw [sweepVip_cards]
        exact lookupA_filter_keep store.cards (entIds live) e.id
          (List.elem_iff.mpr (List.mem_map.mpr ⟨e, he, rfl⟩))
      have hsw_cre : cardCreateEids (sweepVip (entIds live) store.cards store.clips).1 = [] :=
        List.filterMap_eq_nil.mpr (fun op hop => by
          rcases sweepVip_ops_kind (entIds live) store.cards store.clips op hop with
            ⟨x, rfl⟩ | ⟨x, rfl⟩ <;> rfl)
      have hsw_edi : cardEditIds (sweepVip (entIds live) store.cards store.clips).1 = [] :=
        List.filterMap_eq_nil.mpr (fun op hop => by
          rcases sweepVip_ops_kind (entIds live) store.cards store.clips op hop with
            ⟨x, rfl⟩ | ⟨x, rfl⟩ <;> rfl)
      have hft_del : cardDeleteIds (footerStep env store.footerId live.length ini
          (vipLive env live (sweepVip (entIds live) store.cards store.clips).2.1
            (sweepVip (entIds live) store.cards store.clips).2.2 n).2.2.2).1 = [] :=
        List.filterMap_eq_nil.mpr (fun op hop => by
          rcases footerStep_ops_kind env store.footerId live.length ini _ op hop with
            ⟨c, rfl⟩ | ⟨x, rfl⟩ | ⟨x, c, rfl⟩ <;> rfl)
      have hft_cre : cardCreateEids (footerStep env store.footerId live.length ini
          (vipLive env live (sweepVip (entIds live) store.cards store.clips).2.1
            (sweepVip (entIds live) store.cards store.clips).2.2 n).2.2.2).1 = [] :=
        List.filterMap_eq_nil.mpr (fun op hop => by
          rcases footerStep_ops_kind env store.footerId live.length ini _ op hop with
            ⟨c, rfl⟩ | ⟨x, rfl⟩ | ⟨x, c, rfl⟩ <;> rfl)
      have hft_edi : cardEditIds (footerStep env store.footerId live.length ini
          (vipLive env live (sweepVip (entIds live) store.cards store.clips).2.1
            (sweepVip (entIds live) store.cards store.clips).2.2 n).2.2.2).1 = [] :=
        List.filterMap_eq_nil.mpr (fun op hop => by
          rcases footerStep_ops_kind env store.footerId live.length ini _ op hop with
            ⟨c, rfl⟩ | ⟨x, rfl⟩ | ⟨x, c, rfl⟩ <;> rfl)
      refine ⟨?_, ?_, ?_⟩
      · rw [cardDeleteIds_append, cardDeleteIds_append, hl1, hft_del,
          sweepVip_deletes (entIds live) store.cards store.clips]
        simp
      · rw [cardCreateEids_append, cardCreateEids_append, hl2, hsw_cre, hft_cre]
        have hpt : ∀ e ∈ live,
            ((lookupA (sweepVip (entIds live) store.cards store.clips).2.1 e.id).isNone
              : Bool) = !((keysA store.cards).contains e.id) := by
          intro e he
          rw [hconv e he, lookupA_isNone_eq]
        rw [List.filter_congr hpt]
        simp
      · rw [cardEditIds_append, cardEditIds_append, hl3, hsw_edi, hft_edi]
        rw [filterMap_ext_on hconv]
        simp

/-! ## C1: the card diff -/

/-- C1: in one checkVips reconciliation pass, the card messages deleted are
exactly those of the posted ids absent from the live list, a card is
created exactly for each live id absent from the posted map (given every
mapped message id still resolves), and the card of every id present in
both is edited; in particular the delete count is the size of
keys(P) minus ids(L) and the create count the size of ids(L) minus
keys(P). -/
theorem claim_C1 (roster : List String) (live : List Entity) (store : VipStore)
    (env : TrackEnv) (ini : Bool) (n : Nat)
    (hL : (entIds live).Nodup)
    (hres : ∀ p ∈ store.cards, env.resolves p.2 = true)
    (hsub : ∀ e ∈ live, e.id ∈ roster) :
    cardDeleteIds (checkVipsBody roster live store env ini n).1 =
      (store.cards.filter (fun p => !((entIds live).contains p.1))).map Prod.snd
    ∧ (cardDeleteIds (checkVipsBody roster live store env ini n).1).length =
      ((keysA store.cards).filter (fun k => !((entIds live).contains k))).length
    ∧ cardCreateEids (checkVipsBody roster live store env ini n).1 =
      (live.filter (fun e => !((keysA store.cards).contains e.id))).map Entity.id
    ∧ (cardCreateEids (checkVipsBody roster live store env ini n).1).length =
      ((entIds live).filter (fun k => !((keysA store.cards).contains k))).length
    ∧ cardEditIds (checkVipsBody roster live store env ini n).1 =
      live.filterMap (fun e => lookupA store.cards e.id) := by
  obtain ⟨h1, h2, h3⟩ := checkVipsBody_cardOps roster live store env ini n hL hres hsub
  refine ⟨h1, ?_, h2, ?_, h3⟩
  · rw [h1, List.length_map, keysA, List.filter_map, List.length_map]
    rfl
  · rw [h2, List.length_map, entIds, List.filter_map, List.length_map]
    rfl

theorem claim_C1_witness :
    cardDeleteIds (checkVipsBody ["a", "b"] [Entity.mk "b" 5]
        ⟨some "h", some "f", [("a", "m1")], []⟩
        ⟨fun _ => true, fun _ => false, fun _ => false, true⟩ false 0).1 =
      (([("a", "m1")] : List (String × String)).filter
        (fun p => !((entIds [Entity.mk "b" 5]).contains p.1))).map Prod.snd :=
  (claim_C1 ["a", "b"] [Entity.mk "b" 5]
    ⟨some "h", some "f", [("a", "m1")], []⟩
    ⟨fun _ => true, fun _ => false, fun _ => false, true⟩ false 0
    (by decide) (by decide) (by decide)).1

/-! ## C2: the empty-live-list pass -/

theorem delClip_mem_iff (t : List Op) (x : String) :
    Op.delClip x ∈ t ↔ x ∈ clipDeleteIds t := by
  constructor
  · intro h
    exact List.mem_filterMap.mpr ⟨Op.delClip x, h, rfl⟩
  · intro h
    rcases List.mem_filterMap.mp h with ⟨op, hop, hfx⟩
    cases op <;> simp at hfx
    · rw [hfx] at hop
      exact hop

/-- C2 counterexample: the claim says that a pass whose roster yields an
empty live list edits the footer (count zero) rather than deleting it.
With roster ["a"], no live streams, one posted card/clip pair, a resolving
footer message that is not the last message in the channel, the pass
deletes the footer message and re-sends it instead of editing it. -/
theorem claim_C2_counterexample :
    Op.delFooter "f" ∈ (checkVipsBody ["a"] []
        ⟨some "h", some "f", [("a", "m1")], [("a", "c1")]⟩
        ⟨fun _ => true, fun _ => false, fun _ => false, false⟩ false 0).1
    ∧ Op.editFooter 0 ∉ (checkVipsBody ["a"] []
        ⟨some "h", some "f", [("a", "m1")], [("a", "c1")]⟩
        ⟨fun _ => true, fun _ => false, fun _ => false, false⟩ false 0).1 := by
  decide

theorem footerStep_edit (env : TrackEnv) (count : Nat) (ini : Bool) (n : Nat)
    (f : String) (hr : env.resolves f = true) (hl : env.footerIsLast = true) :
    footerStep env (some f) count ini n = ([Op.editFooter count], some f, n) := by
  unfold footerStep
  simp only [hr, hl, if_true]

/-- C2 (amended): when the VIP roster itself is empty (the dedicated
branch), the pass deletes every posted card message and every posted clip
message, empties both maps, edits the footer to count zero when it still
resolves, and never deletes the footer or posts a header.  When the roster
is non-empty but nobody is live, the same deletions and emptying happen,
and the footer is edited to count zero rather than deleted provided the
footer message is still the last message of the channel (otherwise the
code deletes and re-sends it, see the counterexample). -/
theorem claim_C2 :
    (∀ (live : List Entity) (store : VipStore) (env : TrackEnv) (ini : Bool) (n : Nat),
      cardDeleteIds (checkVipsBody [] live store env ini n).1 = valuesA store.cards
      ∧ clipDeleteIds (checkVipsBody [] live store env ini n).1 = valuesA store.clips
      ∧ (checkVipsBody [] live store env ini n).2.1.cards = []
      ∧ (checkVipsBody [] live store env ini n).2.1.clips = []
      ∧ (∀ f, store.footerId = some f → env.resolves f = true →
          Op.editFooter 0 ∈ (checkVipsBody [] live store env ini n).1)
      ∧ (∀ m, Op.delFooter m ∉ (checkVipsBody [] live store env ini n).1)
      ∧ (∀ m, Op.createHeader m ∉ (checkVipsBody [] live store env ini n).1))
    ∧ (∀ (r : String) (rs : List String) (store : VipStore) (env : TrackEnv) (n : Nat)
        (f : String), store.footerId = some f → env.resolves f = true →
        env.footerIsLast = true →
        (keysA store.cards).Nodup → (keysA store.clips).Nodup →
        (∀ q ∈ store.clips, (keysA store.cards).contains q.1 = true) →
      cardDeleteIds (checkVipsBody (r :: rs) [] store env false n).1 = valuesA store.cards
      ∧ (∀ q ∈ store.clips,
          Op.delClip q.2 ∈ (checkVipsBody (r :: rs) [] store env false n).1)
      ∧ (checkVipsBody (r :: rs) [] store env false n).2.1.cards = []
      ∧ (checkVipsBody (r :: rs) [] store env false n).2.1.clips = []
      ∧ Op.editFooter 0 ∈ (checkVipsBody (r :: rs) [] store env false n).1
      ∧ (∀ m, Op.delFooter m ∉ (checkVipsBody (r :: rs) [] store env false n).1)) := by
  constructor
  · intro live store env ini n
    rw [checkVipsBody_nil_roster]
    refine ⟨?_, ?_, rfl, rfl, ?_, ?_, ?_⟩
    · rw [cardDeleteIds_append, cardDeleteIds_append, cardDeleteIds_map_delCard,
        cardDeleteIds_map_delClip]
      rcases footerEditOps_cases store.footerId env with hf | hf <;> rw [hf] <;> simp <;> rfl
    · rw [clipDeleteIds_append, clipDeleteIds_append, clipDeleteIds_map_delCard,
        clipDeleteIds_map_delClip]
      rcases footerEditOps_cases store.footerId env with hf | hf <;> rw [hf] <;> simp <;> rfl
    · intro f hf hr
      rw [hf]
      simp only [hr, if_true]
      exact List.mem_append.mpr (Or.inr (List.mem_cons_self _ _))
    · intro m hm
      rcases List.mem_append.mp hm with hm | hm
      · rcases List.mem_append.mp hm with hm | hm
        · rcases List.mem_map.mp hm with ⟨x, _, heq⟩
          exact Op.noConfusion heq
        · rcases List.mem_map.mp hm with ⟨x, _, heq⟩
          exact Op.noConfusion heq
      · rcases footerEditOps_cases store.footerId env with hf | hf <;> rw [hf] at hm
        · rcases List.mem_cons.mp hm with heq | hm
          · exact Op.noConfusion heq
          · cases hm
        · cases hm
    · intro m hm
      rcases List.mem_append.mp hm with hm | hm
      · rcases List.mem_append.mp hm with hm | hm
        · rcases List.mem_map.mp hm with ⟨x, _, heq⟩
          exact Op.noConfusion heq
        · rcases List.mem_map.mp hm with ⟨x, _, heq⟩
          exact Op.noConfusion heq
      · rcases footerEditOps_cases store.footerId env with hf | hf <;> rw [hf] at hm
        · rcases List.mem_cons.mp hm with heq | hm
          · exact Op.noConfusion heq
          · cases hm
        · cases hm
  · intro r rs store env n f hf hres hlast hndP hndC hclip
    rw [checkVipsBody_cons_roster]
    simp only [entIds, List.map_nil, List.length_nil, vipLive, hf,
      footerStep_edit env 0 false n f hres hlast]
    have hall : ∀ p ∈ store.cards, (!(([] : List String).contains p.1)) = true :=
      fun p _ => rfl
    have hallf : ∀ p ∈ store.cards, (([] : List String).contains p.1) = false :=
      fun p _ => rfl
    refine ⟨?_, ?_, ?_, ?_, ?_, ?_⟩
    · rw [cardDeleteIds_append, cardDeleteIds_append,
        sweepVip_deletes [] store.cards store.clips, List.filter_congr hall,
        List.filter_true]
      simp [cardDeleteIds, valuesA]
    · intro q hq
      rw [delClip_mem_iff]
      rw [clipDeleteIds_append, clipDeleteIds_append,
        sweepVip_clipDeletes [] store.cards store.clips hndP]
      have hqk : q.1 ∈ keysA store.cards := List.elem_iff.mp (hclip q hq)
      rcases List.mem_map.mp hqk with ⟨p, hp, hp1⟩
      have hpin : p ∈ store.cards.filter (fun p => !(([] : List String).contains p.1)) :=
        List.mem_filter.mpr ⟨hp, rfl⟩
      have hlook : lookupA store.clips p.1 = some q.2 := by
        rw [hp1]
        exact lookupA_nodup_mem store.clips hndC hq
      exact List.mem_append.mpr (Or.inl (List.mem_append.mpr (Or.inl
        (List.mem_filterMap.mpr ⟨p, hpin, hlook⟩))))
    · rw [show (sweepVip [] store.cards store.clips).2.1 =
          store.cards.filter (fun p => ([] : List String).contains p.1) from
          sweepVip_cards [] store.cards store.clips,
        List.filter_congr hallf, List.filter_false]
    · rw [show (sweepVip [] store.cards store.clips).2.2 =
          store.clips.filter (fun q => !((keysA store.cards).contains q.1)) from
          sweepVip_clips_empty store.cards store.clips]
      have : ∀ q ∈ store.clips, (!((keysA store.cards).contains q.1)) = false := by
        intro q hq
        rw [hclip q hq]
        rfl
      rw [List.filter_congr this, List.filter_false]
    · exact List.mem_append.mpr (Or.inr (List.mem_cons_self _ _))
    · intro m hm
      rcases List.mem_append.mp hm with hm | hm
      · rcases List.mem_append.mp hm with hm | hm
        · rcases sweepVip_ops_kind [] store.cards store.clips (Op.delFooter m) hm with
            ⟨x, heq⟩ | ⟨x, heq⟩ <;> exact Op.noConfusion heq
        · cases hm
      · rcases List.mem_cons.mp hm with heq | hm
        · exact Op.noConfusion heq
        · cases hm

theorem claim_C2_witness :
    cardDeleteIds (checkVipsBody [] [] ⟨some "h", some "f", [("a", "m1")], [("a", "c1")]⟩
        ⟨fun _ => true, fun _ => false, fun _ => false, true⟩ false 0).1 =
      valuesA [("a", "m1")]
    ∧ Op.editFooter 0 ∈ (checkVipsBody ["a"] [] ⟨some "h", some "f", [("a", "m1")],
        [("a", "c1")]⟩ ⟨fun _ => true, fun _ => false, fun _ => false, true⟩ false 0).1 :=
  ⟨(claim_C2.1 [] ⟨some "h", some "f", [("a", "m1")], [("a", "c1")]⟩
      ⟨fun _ => true, fun _ => false, fun _ => false, true⟩ false 0).1,
   (claim_C2.2 "a" [] ⟨some "h", some "f", [("a", "m1")], [("a", "c1")]⟩
      ⟨fun _ => true, fun _ => false, fun _ => false, true⟩ 0 "f" rfl rfl rfl
      (by decide) (by decide) (by decide)).2.2.2.2.1⟩

/-! ## C6: old clip deleted before new clip created -/

theorem clipScan_true_of_no_clip :
    ∀ (t : List Op), (∀ op ∈ t, isClipOp op = false) → ∀ seen, clipScan seen t = true := by
  intro t
  induction t with
  | nil => intro _ seen; rfl
  | cons op rest ih =>
      intro h seen
      have hop := h op (List.mem_cons_self op rest)
      have hrest : ∀ op ∈ rest, isClipOp op = false :=
        fun x hx => h x (List.mem_cons_of_mem op hx)
      cases op with
      | createClip a b => simp [isClipOp, isCreateClip, isDelClip] at hop
      | delClip x => simp [isClipOp, isCreateClip, isDelClip] at hop
      | delCard x => exact ih hrest seen
      | editCard x => exact ih hrest seen
      | createCard a b => exact ih hrest seen
      | editFooter c => exact ih hrest seen
      | delFooter x => exact ih hrest seen
      | createFooter x c => exact ih hrest seen
      | createHeader x => exact ih hrest seen
      | editSlot a b => exact ih hrest seen
      | createSlot a b => exact ih hrest seen
      | delMsg x => exact ih hrest seen
      | bulkDel xs => exact ih hrest seen
      | startTracking => exact ih hrest seen

theorem clipScan_append_no_clip_right (t1 t2 : List Op)
    (h : ∀ op ∈ t2, isClipOp op = false) :
    ∀ seen, clipScan seen (t1 ++ t2) = clipScan seen t1 := by
  induction t1 with
  | nil =>
      intro seen
      rw [List.nil_append, clipScan_true_of_no_clip t2 h seen]
      rfl
  | cons op rest ih =>
      intro seen
      cases op with
      | createClip a b => simpa [clipScan] using ih true
      | delClip x =>
          simp only [List.cons_append, clipScan]
          rw [show rest.append t2 = rest ++ t2 from rfl, ih seen]
      | delCard x => simpa [clipScan] using ih seen
      | editCard x => simpa [clipScan] using ih seen
      | createCard a b => simpa [clipScan] using ih seen
      | editFooter c => simpa [clipScan] using ih seen
      | delFooter x => simpa [clipScan] using ih seen
      | createFooter x c => simpa [clipScan] using ih seen
      | createHeader x => simpa [clipScan] using ih seen
      | editSlot a b => simpa [clipScan] using ih seen
      | createSlot a b => simpa [clipScan] using ih seen
      | delMsg x => simpa [clipScan] using ih seen
      | bulkDel xs => simpa [clipScan] using ih seen
      | startTracking => simpa [clipScan] using ih seen

theorem sweepPool_cons_live {L : List String} {k : String} (m : String)
    (ps : List (String × String)) (hk : L.contains k = true) :
    sweepPool L ((k, m) :: ps) =
      ((sweepPool L ps).1, (k, m) :: (sweepPool L ps).2) := by
  simp only [sweepPool]
  rw [if_pos hk]

theorem sweepPool_cons_off {L : List String} {k : String} (m : String)
    (ps : List (String × String)) (hk : L.contains k = false) :
    sweepPool L ((k, m) :: ps) =
      (Op.delCard m :: (sweepPool L ps).1, (sweepPool L ps).2) := by
  simp only [sweepPool, hk, Bool.false_eq_true, if_false]

theorem sweepPool_ops_kind (L : List String) :
    ∀ (cs : List (String × String)), ∀ op ∈ (sweepPool L cs).1,
      ∃ x, op = Op.delCard x := by
  intro cs
  induction cs with
  | nil => intro op hop; simp [sweepPool] at hop
  | cons p ps ih =>
      intro op hop
      obtain ⟨k, m⟩ := p
      by_cases hk : L.contains k = true
      · rw [sweepPool_cons_live m ps hk] at hop
        exact ih op hop
      · have hk' : L.contains k = false := by
          cases hc : L.contains k
          · rfl
          · exact absurd hc hk
        rw [sweepPool_cons_off m ps hk'] at hop
        rcases List.mem_cons.mp hop with rfl | hop
        · exact ⟨m, rfl⟩
        · exact ih op hop

theorem cardStepPool_ops_kind (env : TrackEnv) (cards : List (String × String))
    (eid : String) (n : Nat) :
    ∀ op ∈ (cardStepPool env cards eid n).1,
      (∃ x, op = Op.editCard x) ∨ (∃ a b, op = Op.createCard a b) := by
  intro op hop
  unfold cardStepPool at hop
  cases hcl : lookupA cards eid with
  | some m =>
      rw [hcl] at hop
      by_cases hr : env.resolves m = true
      · simp only [hr, if_true] at hop
        rcases List.mem_cons.mp hop with rfl | hop
        · exact Or.inl ⟨m, rfl⟩
        cases hop
      · have hr' : env.resolves m = false := by
          cases hc : env.resolves m
          · rfl
          · exact absurd hc hr
        simp only [hr', Bool.false_eq_true, if_false] at hop
        rcases List.mem_cons.mp hop with rfl | hop
        · exact Or.inr ⟨eid, mkId n, rfl⟩
        cases hop
  | none =>
      rw [hcl] at hop
      rcases List.mem_cons.mp hop with rfl | hop
      · exact Or.inr ⟨eid, mkId n, rfl⟩
      cases hop

theorem poolLive_cons (env : TrackEnv) (e : Entity) (es : List Entity)
    (cards : List (String × String)) (n : Nat) :
    poolLive env (e :: es) cards n =
      ((cardStepPool env cards e.id n).1 ++
        (poolLive env es (cardStepPool env cards e.id n).2.1
          (cardStepPool env cards e.id n).2.2).1,
       (poolLive env es (cardStepPool env cards e.id n).2.1
          (cardStepPool env cards e.id n).2.2).2) := by
  simp only [poolLive]

theorem poolLive_ops_kind (env : TrackEnv) :
    ∀ (live : List Entity) (cards : List (String × String)) (n : Nat),
      ∀ op ∈ (poolLive env live cards n).1,
        (∃ x, op = Op.editCard x) ∨ (∃ a b, op = Op.createCard a b) := by
  intro live
  induction live with
  | nil => intro cards n op hop; simp [poolLive] at hop
  | cons e es ih =>
      intro cards n op hop
      rw [poolLive_cons] at hop
      rcases List.mem_append.mp hop with hop | hop
      · exact cardStepPool_ops_kind env cards e.id n op hop
      · exact ih _ _ op hop

theorem raidSlotEdit_ops_kind (env : TrackEnv) (mid : Option String) (name : String) :
    ∀ op ∈ raidSlotEdit env mid name, ∃ a b, op = Op.editSlot a b := by
  intro op hop
  unfold raidSlotEdit at hop
  cases mid with
  | some m =>
      by_cases hr : env.resolves m = true
      · simp only [hr, if_true] at hop
        rcases List.mem_cons.mp hop with rfl | hop
        · exact ⟨name, m, rfl⟩
        cases hop
      · have hr' : env.resolves m = false := by
          cases hc : env.resolves m
          · rfl
          · exact absurd hc hr
        simp only [hr', Bool.false_eq_true, if_false] at hop
        cases hop
  | none => cases hop

/-- C6 counterexample: in the VIP tracker's live loop the new clip message
is posted first and the old one deleted afterwards ("Post a new clip, and
only delete the old one after."), so for a VIP with an existing clip
message there is a moment with two clip messages posted. -/
theorem claim_C6_counterexample :
    Op.createClip "a" "new-0" ∈ (checkVipsBody ["a"] [Entity.mk "a" 5]
        ⟨some "h", some "f", [("a", "m1")], [("a", "c1")]⟩
        ⟨fun _ => true, fun _ => true, fun _ => true, true⟩ false 0).1
    ∧ Op.delClip "c1" ∈ (checkVipsBody ["a"] [Entity.mk "a" 5]
        ⟨some "h", some "f", [("a", "m1")], [("a", "c1")]⟩
        ⟨fun _ => true, fun _ => true, fun _ => true, true⟩ false 0).1
    ∧ delBeforeCreate (checkVipsBody ["a"] [Entity.mk "a" 5]
        ⟨some "h", some "f", [("a", "m1")], [("a", "c1")]⟩
        ⟨fun _ => true, fun _ => true, fun _ => true, true⟩ false 0).1 = false := by
  decide

/-- C6 (amended): the Community Pool and Raid Pile passes delete the old
highlight-clip message before creating the new one; the VIP tracker
instead posts the new clip message first and deletes the old one
afterwards, accepting a brief window with two clip messages. -/
theorem claim_C6 :
    (∀ (store : PoolStore) (spotClip : Option String) (liveIn : List Entity)
        (idx : Nat) (env : TrackEnv) (ini : Bool) (n : Nat),
        delBeforeCreate (checkPoolBody store spotClip liveIn idx env ini n).1 = true)
    ∧ (∀ (store : RaidStore) (liveIn : List Entity) (env : TrackEnv) (n : Nat),
        delBeforeCreate (checkRaidBody store liveIn env n).1 = true)
    ∧ delBeforeCreate (checkVipsBody ["a"] [Entity.mk "a" 5]
        ⟨some "h", some "f", [("a", "m1")], [("a", "c1")]⟩
        ⟨fun _ => true, fun _ => true, fun _ => true, true⟩ false 0).1 = false := by
  refine ⟨?_, ?_, by decide⟩
  · intro store spotClip liveIn idx env ini n
    have hsw : ∀ op ∈ (sweepPool (entIds (sortByStart liveIn)) store.cards).1,
        isClipOp op = false := by
      intro op hop
      rcases sweepPool_ops_kind _ store.cards op hop with ⟨x, rfl⟩
      rfl
    have hlv : ∀ (cards : List (String × String)) (n1 : Nat),
        ∀ op ∈ (poolLive env (sortByStart liveIn) cards n1).1, isClipOp op = false := by
      intro cards n1 op hop
      rcases poolLive_ops_kind env (sortByStart liveIn) cards n1 op hop with
        ⟨x, rfl⟩ | ⟨a, b, rfl⟩ <;> rfl
    have hft : ∀ (count : Nat) (n1 : Nat),
        ∀ op ∈ (footerStep env store.footerId count ini n1).1, isClipOp op = false := by
      intro count n1 op hop
      rcases footerStep_ops_kind env store.footerId count ini n1 op hop with
        ⟨c, rfl⟩ | ⟨x, rfl⟩ | ⟨x, c, rfl⟩ <;> rfl
    simp only [checkPoolBody, delBeforeCreate]
    rw [clipScan_append_no_clip_right _ _ (hft _ _) false,
      clipScan_append_no_clip_right _ _ (hlv _ _) false,
      clipScan_append_no_clip_right _ _ hsw false]
    cases spotClip with
    | none =>
        simp only [List.nil_append]
        cases hspot : (spotlightSelect idx (sortByStart liveIn)).2 with
        | none => rfl
        | some u =>
            by_cases h1 : env.clipOpts u.id = true
            · by_cases h2 : env.clipSendOk u.id = true
              · simp [clipScan, h1, h2]
              · have h2' : env.clipSendOk u.id = false := by
                  cases hc : env.clipSendOk u.id
                  · rfl
                  · exact absurd hc h2
                simp [clipScan, h1, h2']
            · have h1' : env.clipOpts u.id = false := by
                cases hc : env.clipOpts u.id
                · rfl
                · exact absurd hc h1
              simp [clipScan, h1']
    | some o =>
        cases hspot : (spotlightSelect idx (sortByStart liveIn)).2 with
        | none => simp [clipScan]
        | some u =>
            by_cases h1 : env.clipOpts u.id = true
            · by_cases h2 : env.clipSendOk u.id = true
              · simp [clipScan, h1, h2]
              · have h2' : env.clipSendOk u.id = false := by
                  cases hc : env.clipSendOk u.id
                  · rfl
                  · exact absurd hc h2
                simp [clipScan, h1, h2']
            · have h1' : env.clipOpts u.id = false := by
                cases hc : env.clipOpts u.id
                · rfl
                · exact absurd hc h1
              simp [clipScan, h1']
  · intro store liveIn env n
    have hslots : ∀ op ∈ (raidSlotEdit env store.holderId "holder"
        ++ raidSlotEdit env store.leaderboardId "leaderboard"
        ++ raidSlotEdit env store.queueId "queue"
        ++ raidSlotEdit env store.footerId "footer"), isClipOp op = false := by
      intro op hop
      rcases List.mem_append.mp hop with hop | hop
      · rcases List.mem_append.mp hop with hop | hop
        · rcases List.mem_append.mp hop with hop | hop
          · rcases raidSlotEdit_ops_kind env store.holderId "holder" op hop with
              ⟨a, b, rfl⟩
            rfl
          · rcases raidSlotEdit_ops_kind env store.leaderboardId "leaderboard" op hop with
              ⟨a, b, rfl⟩
            rfl
        · rcases raidSlotEdit_ops_kind env store.queueId "queue" op hop with ⟨a, b, rfl⟩
          rfl
      · rcases raidSlotEdit_ops_kind env store.footerId "footer" op hop with ⟨a, b, rfl⟩
        rfl
    simp only [checkRaidBody, delBeforeCreate]
    rw [clipScan_append_no_clip_right _ _ hslots false]
    cases store.clipId with
    | none =>
        simp only [List.nil_append]
        cases hh : (sortByStart liveIn).head? with
        | none => rfl
        | some u =>
            by_cases h1 : env.clipOpts u.id = true
            · by_cases h2 : env.clipSendOk u.id = true
              · simp [clipScan, h1, h2]
              · have h2' : env.clipSendOk u.id = false := by
                  cases hc : env.clipSendOk u.id
                  · rfl
                  · exact absurd hc h2
                simp [clipScan, h1, h2']
            · have h1' : env.clipOpts u.id = false := by
                cases hc : env.clipOpts u.id
                · rfl
                · exact absurd hc h1
              simp [clipScan, h1']
    | some o =>
        cases hh : (sortByStart liveIn).head? with
        | none => simp [clipScan]
        | some u =>
            by_cases h1 : env.clipOpts u.id = true
            · by_cases h2 : env.clipSendOk u.id = true
              · simp [clipScan, h1, h2]
              · have h2' : env.clipSendOk u.id = false := by
                  cases hc : env.clipSendOk u.id
                  · rfl
                  · exact absurd hc h2
                simp [clipScan, h1, h2']
            · have h1' : env.clipOpts u.id = false := by
                cases hc : env.clipOpts u.id
                · rfl
                · exact absurd hc h1
              simp [clipScan, h1']

/-! ## C9: stop -/

theorem attempted_map_delMsg : ∀ ms : List String,
    attemptedDeleteIds (ms.map Op.delMsg) = ms := by
  intro ms
  induction ms with
  | nil => rfl
  | cons a as ih =>
      show a :: attemptedDeleteIds (as.map Op.delMsg) = a :: as
      rw [ih]

theorem stopVip_some (c : VipConfigDoc) (chOk : Bool)
    (h : strTruthy c.channelId = true) :
    stopVip (some c) chOk =
      (true, if chOk then (vipStopIds c).map Op.delMsg else [], true) := by
  simp only [stopVip, h, Bool.not_true, Bool.false_eq_true, if_false]

theorem stopRaid_some (c : RaidConfigDoc) (chOk bulkOk : Bool)
    (h : strTruthy c.channelId = true) :
    stopRaid (some c) chOk bulkOk =
      (true,
       if chOk then
         if (raidStopIds c).length > 1 then
           if bulkOk then [Op.bulkDel (raidStopIds c)]
           else Op.bulkDel (raidStopIds c) :: (raidStopIds c).map Op.delMsg
         else (raidStopIds c).map Op.delMsg
       else [], true) := by
  simp only [stopRaid, h, Bool.not_true, Bool.false_eq_true, if_false]

/-- C9: stop returns false and performs no channel or message operations
(and deletes no configuration) when no configuration with a channel id is
persisted; when one exists, stop clears the interval, deletes the
configuration document, attempts to delete every message it references
(via bulk delete with per-message fallback for the raid pile), and returns
true. -/
theorem claim_C9 :
    (∀ chOk : Bool, stopVip none chOk = (false, [], false))
    ∧ (∀ (c : VipConfigDoc) (chOk : Bool), strTruthy c.channelId = false →
        stopVip (some c) chOk = (false, [], false))
    ∧ (∀ (c : VipConfigDoc) (chOk : Bool), strTruthy c.channelId = true →
        (stopVip (some c) chOk).1 = true ∧ (stopVip (some c) chOk).2.2 = true
        ∧ (chOk = true → (stopVip (some c) chOk).2.1 = (vipStopIds c).map Op.delMsg)
        ∧ (chOk = true → attemptedDeleteIds (stopVip (some c) chOk).2.1 = vipStopIds c))
    ∧ (∀ s : SchedState, (vipSchedStep s SchedEvent.stopCall).active = none
        ∧ (raidSchedStep s SchedEvent.stopCall).active = none)
    ∧ (∀ (chOk bulkOk : Bool), stopRaid none chOk bulkOk = (false, [], false))
    ∧ (∀ (c : RaidConfigDoc) (chOk bulkOk : Bool), strTruthy c.channelId = false →
        stopRaid (some c) chOk bulkOk = (false, [], false))
    ∧ (∀ (c : RaidConfigDoc) (chOk bulkOk : Bool), strTruthy c.channelId = true →
        (stopRaid (some c) chOk bulkOk).1 = true
        ∧ (stopRaid (some c) chOk bulkOk).2.2 = true
        ∧ (chOk = true → ∀ mid ∈ raidStopIds c,
            mid ∈ attemptedDeleteIds (stopRaid (some c) chOk bulkOk).2.1)) := by
  refine ⟨fun chOk => rfl, ?_, ?_, ?_, fun chOk bulkOk => rfl, ?_, ?_⟩
  · intro c chOk h
    simp only [stopVip, h, Bool.not_false, if_true]
  · intro c chOk h
    rw [stopVip_some c chOk h]
    refine ⟨rfl, rfl, fun hc => by rw [hc]; simp, fun hc => ?_⟩
    rw [hc]
    simp only [if_true]
    exact attempted_map_delMsg (vipStopIds c)
  · intro s
    constructor
    · cases hact : s.active with
      | some i => simp [vipSchedStep, clearActive, hact]
      | none => simp [vipSchedStep, clearActive, hact]
    · cases hact : s.active with
      | some i => simp [raidSchedStep, clearActive, hact]
      | none => simp [raidSchedStep, clearActive, hact]
  · intro c chOk bulkOk h
    simp only [stopRaid, h, Bool.not_false, if_true]
  · intro c chOk bulkOk h
    rw [stopRaid_some c chOk bulkOk h]
    refine ⟨rfl, rfl, fun hc mid hmid => ?_⟩
    rw [hc]
    simp only [if_true]
    by_cases hlen : (raidStopIds c).length > 1
    · simp only [hlen, if_true]
      cases bulkOk with
      | true =>
          simp only [if_true]
          show mid ∈ raidStopIds c ++ attemptedDeleteIds []
          exact List.mem_append.mpr (Or.inl hmid)
      | false =>
          simp only [Bool.false_eq_true, if_false]
          show mid ∈ raidStopIds c ++ attemptedDeleteIds ((raidStopIds c).map Op.delMsg)
          exact List.mem_append.mpr (Or.inl hmid)
    · simp only [hlen, if_false]
      rw [attempted_map_delMsg]
      exact hmid

theorem claim_C9_witness :
    stopVip none true = (false, [], false)
    ∧ (stopVip (some ⟨some "chan", some "h", some "f", [("a", "m1")], [("a", "c1")]⟩)
        true).1 = true
    ∧ attemptedDeleteIds (stopVip
        (some ⟨some "chan", some "h", some "f", [("a", "m1")], [("a", "c1")]⟩) true).2.1 =
      vipStopIds ⟨some "chan", some "h", some "f", [("a", "m1")], [("a", "c1")]⟩
    ∧ (stopRaid (some ⟨some "chan", some "h", some "ho", some "cl", some "lb",
        some "q", some "f"⟩) true false).1 = true
    ∧ "ho" ∈ attemptedDeleteIds (stopRaid (some ⟨some "chan", some "h", some "ho",
        some "cl", some "lb", some "q", some "f"⟩) true false).2.1 :=
  ⟨claim_C9.1 true,
   (claim_C9.2.2.1 ⟨some "chan", some "h", some "f", [("a", "m1")], [("a", "c1")]⟩
     true (by decide)).1,
   (claim_C9.2.2.1 ⟨some "chan", some "h", some "f", [("a", "m1")], [("a", "c1")]⟩
     true (by decide)).2.2.2 rfl,
   (claim_C9.2.2.2.2.2.2 ⟨some "chan", some "h", some "ho", some "cl", some "lb",
     some "q", some "f"⟩ true false (by decide)).1,
   (claim_C9.2.2.2.2.2.2 ⟨some "chan", some "h", some "ho", some "cl", some "lb",
     some "q", some "f"⟩ true false (by decide)).2.2 rfl "ho" (by decide)⟩

/-! ## C8: bootstrap -/

/-- C8 counterexample: the claim says bootstrap performs a full pass that
always creates (never edits) every slot message and then calls start.  A
VIP bootstrap over a guild with a persisted configuration mapping id "a"
to a still-resolving message edits that card (the embedded checkVips
reloads the persisted map), and the VIP bootstrap never invokes start. -/
theorem claim_C8_counterexample :
    Op.editCard "m1" ∈ (runInitialVip (some ⟨some "oh", some "of", [("a", "m1")], []⟩)
        true ["a"] [Entity.mk "a" 5]
        ⟨fun _ => true, fun _ => false, fun _ => false, true⟩ 0).1
    ∧ Op.startTracking ∉ (runInitialVip (some ⟨some "oh", some "of", [("a", "m1")], []⟩)
        true ["a"] [Entity.mk "a" 5]
        ⟨fun _ => true, fun _ => false, fun _ => false, true⟩ 0).1 := by
  decide

theorem runInitialVip_some (dbStore : VipStore) (roster : List String)
    (live : List Entity) (env : TrackEnv) (n : Nat) :
    (runInitialVip (some dbStore) true roster live env n).1 =
      Op.createHeader (mkId n) ::
        ((checkVipsBody roster live dbStore env true (n + 1)).1 ++
          [Op.createFooter
            (mkId (checkVipsBody roster live dbStore env true (n + 1)).2.2)
            live.length]) := by
  simp only [runInitialVip, checkVips, Bool.not_true, Bool.false_eq_true, if_false]
  exact List.cons_append _ _ _

/-- C8 (amended): bootstrap clears any existing interval; the community
pool bootstrap resets the shared rotation index independently of its
previous value; the raid pile bootstrap freshly creates all five slot
messages, performs no edits, and ends by calling start; the VIP bootstrap
does not call start (the invoking command does), and its embedded pass
runs against the persisted configuration: with no persisted configuration
it posts only the fresh header and footer, and with one it edits every
posted card whose id is live and whose message still resolves. -/
theorem claim_C8 :
    (∀ s : SchedState, (vipSchedStep s SchedEvent.bootstrapCall).active = none)
    ∧ (∀ (idx idx' : Nat) (g g' : String) (cfg : Bool) (live : List Entity),
        poolIdxStep idx (PoolEvent.bootstrapFor g cfg live) =
          poolIdxStep idx' (PoolEvent.bootstrapFor g' cfg live))
    ∧ (∀ (liveIn : List Entity) (env : TrackEnv) (n : Nat),
        (∃ m, Op.createSlot "header" m ∈ (runInitialRaid liveIn env n).1)
        ∧ (∃ m, Op.createSlot "holder" m ∈ (runInitialRaid liveIn env n).1)
        ∧ (∃ m, Op.createSlot "leaderboard" m ∈ (runInitialRaid liveIn env n).1)
        ∧ (∃ m, Op.createSlot "queue" m ∈ (runInitialRaid liveIn env n).1)
        ∧ (∃ m, Op.createSlot "footer" m ∈ (runInitialRaid liveIn env n).1)
        ∧ (∀ a b, Op.editSlot a b ∉ (runInitialRaid liveIn env n).1)
        ∧ (∀ m, Op.editCard m ∉ (runInitialRaid liveIn env n).1)
        ∧ ((runInitialRaid liveIn env n).1.getLast? = some Op.startTracking))
    ∧ (∀ (chOk : Bool) (roster : List String) (live : List Entity) (env : TrackEnv)
        (n : Nat),
        (runInitialVip none chOk roster live env n).1 =
          [Op.createHeader (mkId n), Op.createFooter (mkId (n + 1)) live.length]
        ∧ Op.startTracking ∉ (runInitialVip none chOk roster live env n).1)
    ∧ (∀ (dbStore : VipStore) (roster : List String) (live : List Entity)
        (env : TrackEnv) (n : Nat),
        (entIds live).Nodup →
        (∀ p ∈ dbStore.cards, env.resolves p.2 = true) →
        (∀ e ∈ live, e.id ∈ roster) →
        cardEditIds (runInitialVip (some dbStore) true roster live env n).1 =
          live.filterMap (fun e => lookupA dbStore.cards e.id)) := by
  refine ⟨?_, ?_, ?_, ?_, ?_⟩
  · intro s
    cases hact : s.active with
    | some i => simp [vipSchedStep, clearActive, hact]
    | none => simp [vipSchedStep, clearActive, hact]
  · intro idx idx' g g' cfg live
    rfl
  · intro liveIn env n
    have hshape : (runInitialRaid liveIn env n).1 =
        (match (sortByStart liveIn).head? with
         | some h =>
           if env.clipOpts h.id then
             if env.clipSendOk h.id then ([Op.createClip h.id (mkId n)] : List Op)
             else []
           else []
         | none => []) ++
        [Op.createSlot "header" (mkId ((runInitialRaid liveIn env n).2.2 - 5)),
         Op.createSlot "holder" (mkId ((runInitialRaid liveIn env n).2.2 - 4)),
         Op.createSlot "leaderboard" (mkId ((runInitialRaid liveIn env n).2.2 - 3)),
         Op.createSlot "queue" (mkId ((runInitialRaid liveIn env n).2.2 - 2)),
         Op.createSlot "footer" (mkId ((runInitialRaid liveIn env n).2.2 - 1)),
         Op.startTracking] := by
      simp only [runInitialRaid]
      cases hh : (sortByStart liveIn).head? with
      | none => rfl
      | some h =>
          by_cases h1 : env.clipOpts h.id = true
          · by_cases h2 : env.clipSendOk h.id = true
            · simp [h1, h2]
            · have h2' : env.clipSendOk h.id = false := by
                cases hc : env.clipSendOk h.id
                · rfl
                · exact absurd hc h2
              simp [h1, h2']
          · have h1' : env.clipOpts h.id = false := by
              cases hc : env.clipOpts h.id
              · rfl
              · exact absurd hc h1
            simp [h1']
    rw [hshape]
    refine ⟨⟨mkId ((runInitialRaid liveIn env n).2.2 - 5),
        List.mem_append.mpr (Or.inr (by simp))⟩,
      ⟨mkId ((runInitialRaid liveIn env n).2.2 - 4),
        List.mem_append.mpr (Or.inr (by simp))⟩,
      ⟨mkId ((runInitialRaid liveIn env n).2.2 - 3),
        List.mem_append.mpr (Or.inr (by simp))⟩,
      ⟨mkId ((runInitialRaid liveIn env n).2.2 - 2),
        List.mem_append.mpr (Or.inr (by simp))⟩,
      ⟨mkId ((runInitialRaid liveIn env n).2.2 - 1),
        List.mem_append.mpr (Or.inr (by simp))⟩, ?_, ?_, ?_⟩
    · intro a b hm
      rcases List.mem_append.mp hm with hm | hm
      · cases hh : (sortByStart liveIn).head? with
        | none =>
            rw [hh] at hm
            cases hm
        | some h =>
            rw [hh] at hm
            by_cases h1 : env.clipOpts h.id = true
            · by_cases h2 : env.clipSendOk h.id = true
              · simp only [h1, h2, if_true] at hm
                rcases List.mem_cons.mp hm with heq | hm
                · exact Op.noConfusion heq
                · cases hm
              · have h2' : env.clipSendOk h.id = false := by
                  cases hc : env.clipSendOk h.id
                  · rfl
                  · exact absurd hc h2
                simp only [h1, h2', if_true, Bool.false_eq_true, if_false] at hm
                cases hm
            · have h1' : env.clipOpts h.id = false := by
                cases hc : env.clipOpts h.id
                · rfl
                · exact absurd hc h1
              simp only [h1', Bool.false_eq_true, if_false] at hm
              cases hm
      · rcases List.mem_cons.mp hm with heq | hm
        · exact Op.noConfusion heq
        rcases List.mem_cons.mp hm with heq | hm
        · exact Op.noConfusion heq
        rcases List.mem_cons.mp hm with heq | hm
        · exact Op.noConfusion heq
        rcases List.mem_cons.mp hm with heq | hm
        · exact Op.noConfusion heq
        rcases List.mem_cons.mp hm with heq | hm
        · exact Op.noConfusion heq
        rcases List.mem_cons.mp hm with heq | hm
        · exact Op.noConfusion heq
        cases hm
    · intro m hm
      rcases List.mem_append.mp hm with hm | hm
      · cases hh : (sortByStart liveIn).head? with
        | none =>
            rw [hh] at hm
            cases hm
        | some h =>
            rw [hh] at hm
            by_cases h1 : env.clipOpts h.id = true
            · by_cases h2 : env.clipSendOk h.id = true
              · simp only [h1, h2, if_true] at hm
                rcases List.mem_cons.mp hm with heq | hm
                · exact Op.noConfusion heq
                · cases hm
              · have h2' : env.clipSendOk h.id = false := by
                  cases hc : env.clipSendOk h.id
                  · rfl
                  · exact absurd hc h2
                simp only [h1, h2', if_true, Bool.false_eq_true, if_false] at hm
                cases hm
            · have h1' : env.clipOpts h.id = false := by
                cases hc : env.clipOpts h.id
                · rfl
                · exact absurd hc h1
              simp only [h1', Bool.false_eq_true, if_false] at hm
              cases hm
      · rcases List.mem_cons.mp hm with heq | hm
        · exact Op.noConfusion heq
        rcases List.mem_cons.mp hm with heq | hm
        · exact Op.noConfusion heq
        rcases List.mem_cons.mp hm with heq | hm
        · exact Op.noConfusion heq
        rcases List.mem_cons.mp hm with heq | hm
        · exact Op.noConfusion heq
        rcases List.mem_cons.mp hm with heq | hm
        · exact Op.noConfusion heq
        rcases List.mem_cons.mp hm with heq | hm
        · exact Op.noConfusion heq
        cases hm
    · cases hcl : (match (sortByStart liveIn).head? with
         | some h =>
           if env.clipOpts h.id then
             if env.clipSendOk h.id then ([Op.createClip h.id (mkId n)] : List Op)
             else []
           else []
         | none => ([] : List Op)) with
      | nil => rfl
      | cons op rest =>
          rw [List.getLast?_append]
          rfl
  · intro chOk roster live env n
    have ht : (runInitialVip none chOk roster live env n).1 =
        [Op.createHeader (mkId n), Op.createFooter (mkId (n + 1)) live.length] := rfl
    refine ⟨ht, ?_⟩
    rw [ht]
    intro hm
    rcases List.mem_cons.mp hm with heq | hm
    · exact Op.noConfusion heq
    rcases List.mem_cons.mp hm with heq | hm
    · exact Op.noConfusion heq
    cases hm
  · intro dbStore roster live env n hL hres hsub
    rw [runInitialVip_some]
    have h1 : cardEditIds (Op.createHeader (mkId n) ::
        ((checkVipsBody roster live dbStore env true (n + 1)).1 ++
          [Op.createFooter
            (mkId (checkVipsBody roster live dbStore env true (n + 1)).2.2)
            live.length])) =
        cardEditIds ((checkVipsBody roster live dbStore env true (n + 1)).1 ++
          [Op.createFooter
            (mkId (checkVipsBody roster live dbStore env true (n + 1)).2.2)
            live.length]) := rfl
    rw [h1, cardEditIds_append]
    rw [(checkVipsBody_cardOps roster live dbStore env true (n + 1) hL hres hsub).2.2]
    simp [cardEditIds]

theorem claim_C8_witness :
    cardEditIds (runInitialVip (some ⟨some "oh", some "of", [("a", "m1")], []⟩)
        true ["a"] [Entity.mk "a" 5]
        ⟨fun _ => true, fun _ => false, fun _ => false, true⟩ 0).1 =
      [Entity.mk "a" 5].filterMap (fun e => lookupA [("a", "m1")] e.id) :=
  claim_C8.2.2.2.2 ⟨some "oh", some "of", [("a", "m1")], []⟩ ["a"] [Entity.mk "a" 5]
    ⟨fun _ => true, fun _ => false, fun _ => false, true⟩ 0
    (by decide) (by decide) (by decide)
